import Mathlib

/-!
Verification of the nicolai-jsonrpc dispatch core.

This file gives a shallow embedding of the JSON-RPC dispatch library:
the recursive parameter validator (src/checkParameters.js), the session
layer (Session / SessionManager, 2022 generation: the copy whose
SessionManager implements setPublicMethods and whose
Session.checkPermission compares method names by exact string equality;
this is the generation the current rpc.js pairs with), and the
dispatcher (src/rpc.js: Rpc._execute, Rpc._handle, Rpc.handle).

Modelling conventions:
* JSON values are the inductive JValue; JavaScript objects are
  insertion-ordered association lists.
* The constraint language of the validator is the inductive Constraint,
  mirroring the fields the source reads: type, length, minlength,
  maxlength, contains, required, optional.  A type field holding a
  plain object (which the source rejects with
  "Expected constraints to contain a type (string)") is CType.cobj.
* JavaScript exceptions are Except.error.  The validator can genuinely
  throw (reading a property of null, or a non-string type field), so it
  returns Except String (Bool × String).
* Recursion of the validator is by fuel; the wrapper checkParameters
  supplies a fuel far larger than the recursion ever needs (recursion
  depth is bounded by the nesting depth of the constraint, and loop
  helpers are structural on their lists and consume no fuel).  Theorems
  are phrased so that no fuel-adequacy argument is required.
* Handlers are opaque pure functions from (params, session) to an
  outcome (return value, or a thrown string / Error / object / other),
  matching the classification in Rpc._handle.
* The dispatcher's shared mutable error-template table (Rpc._errors) is
  threaded explicitly: responses store a reference (ErrKey) into the
  table, Object.assign is modelled by objAssign which mutates the
  table entry in place, and serialization (JSON.stringify at the end of
  Rpc.handle) resolves references against the final table.  This
  faithfully reproduces the sharing of error objects across responses.
-/

namespace NicolaiJsonRpc

/-- A JSON value; JavaScript objects are insertion-ordered association lists. -/
inductive JValue : Type where
  | jnull
  | jbool (b : Bool)
  | jnum (n : Int)
  | jstr (s : String)
  | jarr (elems : List JValue)
  | jobj (fields : List (String × JValue))

/-- The JavaScript typeof operator restricted to JSON values:
null and arrays are "object". -/
def typeofStr : JValue → String
  | .jnull => "object"
  | .jbool _ => "boolean"
  | .jnum _ => "number"
  | .jstr _ => "string"
  | .jarr _ => "object"
  | .jobj _ => "object"

/-- Test for the JavaScript null value. -/
def JValue.isNull : JValue → Bool
  | .jnull => true
  | _ => false

/-- Property read on an object: first binding of the key, none when the key
is absent (JavaScript undefined) or the value is not a plain object. -/
def getField : JValue → String → Option JValue
  | .jobj fields, k => (fields.find? (fun p => p.1 == k)).map Prod.snd
  | _, _ => none

/-- Lookup in an association list of object fields. -/
def lookupField (fields : List (String × JValue)) (k : String) : Option JValue :=
  (fields.find? (fun p => p.1 == k)).map Prod.snd

/-- One assignment target[k] = v of JavaScript Object.assign: overwrite the
existing binding in place, else append at the end. -/
def setField : List (String × JValue) → String → JValue → List (String × JValue)
  | [], k, v => [(k, v)]
  | (k', v') :: rest, k, v =>
    if k' == k then (k', v) :: rest else (k', v') :: setField rest k v

/-- JavaScript Object.assign(target, source): copy each source field into the
target in order, mutating the target. -/
def objAssign (target source : List (String × JValue)) : List (String × JValue) :=
  source.foldl (fun acc kv => setField acc kv.1 kv.2) target

/-- The shape of the type field of a constraint object: a single type name,
an array of alternative type names, or (ill-formed, but constructed by
checkArray for a nested object contains) a plain object, which makes the
validator throw. -/
inductive CType : Type where
  | single (s : String)
  | alts (l : List String)
  | cobj

/-- The shape of the contains field: a type name, an array of type names, or
a plain object (for object constraints: a map from keys to nested
constraints, the documented synonym for required). -/
inductive Contains (α : Type) : Type where
  | ctype (s : String)
  | calts (l : List String)
  | cmap (m : List (String × α))

/-- The shape of the required field: a map from keys to nested constraints,
or an array of key names. -/
inductive Required (α : Type) : Type where
  | rmap (m : List (String × α))
  | rarr (l : List String)

/-- A constraint object of the validator's schema language, with exactly the
fields the source reads: type, length, minlength, maxlength, contains,
required, optional. -/
inductive Constraint : Type where
  | mk (ctype : Option CType) (clen cminlen cmaxlen : Option Int)
      (contains : Option (Contains Constraint))
      (required : Option (Required Constraint))
      (optional : Option (List (String × Constraint)))

def Constraint.ctypeOf : Constraint → Option CType
  | .mk t _ _ _ _ _ _ => t

def Constraint.clenOf : Constraint → Option Int
  | .mk _ n _ _ _ _ _ => n

def Constraint.cminlenOf : Constraint → Option Int
  | .mk _ _ n _ _ _ _ => n

def Constraint.cmaxlenOf : Constraint → Option Int
  | .mk _ _ _ n _ _ _ => n

def Constraint.containsOf : Constraint → Option (Contains Constraint)
  | .mk _ _ _ _ c _ _ => c

def Constraint.requiredOf : Constraint → Option (Required Constraint)
  | .mk _ _ _ _ _ r _ => r

def Constraint.optionalOf : Constraint → Option (List (String × Constraint))
  | .mk _ _ _ _ _ _ o => o

mutual

/-- A computable size of a constraint, used only to supply recursion fuel to
the validator: it dominates the recursion depth of checkParameters (the
loop helpers are structural on their lists and consume no fuel). -/
def Constraint.csize : Constraint → Nat
  | .mk _ _ _ _ c r o =>
    2 + Constraint.csizeContains c + Constraint.csizeRequired r + Constraint.csizeOptionalF o

def Constraint.csizeContains : Option (Contains Constraint) → Nat
  | none => 0
  | some (.ctype _) => 1
  | some (.calts _) => 1
  | some (.cmap m) => 1 + Constraint.csizeMap m

def Constraint.csizeRequired : Option (Required Constraint) → Nat
  | none => 0
  | some (.rmap m) => 1 + Constraint.csizeMap m
  | some (.rarr _) => 1

def Constraint.csizeOptionalF : Option (List (String × Constraint)) → Nat
  | none => 0
  | some m => 1 + Constraint.csizeMap m

def Constraint.csizeMap : List (String × Constraint) → Nat
  | [] => 0
  | (_, c) :: rest => Constraint.csize c + Constraint.csizeMap rest

end

/-- The fresh constraint object the source builds when recursing on a bare
type tag, as in checkParameters(value, \x7btype: t\x7d, path). -/
def freshTypeConstraint (t : CType) : Constraint :=
  .mk (some t) none none none none none none

/-- The exact-length check of checkArray (first guard). -/
def arrayMaxCheck (c : Constraint) (len : Nat) (path : String) : Option (Bool × String) :=
  match c.cmaxlenOf with
  | some n =>
    if (len : Int) > n then
      some (false, "Expected an array with at most " ++ toString n ++ " elements, found " ++ toString len ++ " elements (" ++ path ++ ")")
    else none
  | none => none

/-- The minimum-length check of checkArray (second guard), falling through to
the maximum-length check. -/
def arrayMinCheck (c : Constraint) (len : Nat) (path : String) : Option (Bool × String) :=
  match c.cminlenOf with
  | some n =>
    if (len : Int) < n then
      some (false, "Expected an array with at least " ++ toString n ++ " elements, found " ++ toString len ++ " elements (" ++ path ++ ")")
    else arrayMaxCheck c len path
  | none => arrayMaxCheck c len path

/-- The length guards of checkArray in source order: exact length, minimum
length, maximum length; some result means early rejection. -/
def arrayLenCheck (c : Constraint) (len : Nat) (path : String) : Option (Bool × String) :=
  match c.clenOf with
  | some n =>
    if (len : Int) ≠ n then
      some (false, "Expected an array with " ++ toString n ++ " elements, found " ++ toString len ++ " elements (" ++ path ++ ")")
    else arrayMinCheck c len path
  | none => arrayMinCheck c len path

/-- The element loop of checkArray: check every element against the fresh
per-element constraint, stopping at the first rejection or thrown error;
none means all elements passed. -/
def arrLoopGo (rec : JValue → Constraint → String → Except String (Bool × String))
    (tc : Constraint) : List JValue → Nat → String → Except String (Option (Bool × String))
  | [], _, _ => .ok none
  | v :: rest, idx, path =>
    match rec v tc ("[" ++ toString idx ++ "]" ++ path) with
    | .error e => .error e
    | .ok (false, r) => .ok (some (false, r))
    | .ok (true, _) => arrLoopGo rec tc rest (idx + 1) path

/-- Join the element-loop outcome with checkArray's final success message. -/
def arrLoopFinish (r : Except String (Option (Bool × String))) (path : String) :
    Except String (Bool × String) :=
  match r with
  | .error e => .error e
  | .ok (some res) => .ok res
  | .ok none => .ok (true, "Array contents match the constraints (" ++ path ++ ")")

/-- checkArray of src/checkParameters.js: length guards, then the contains
check.  A contains that is a plain object is passed back to checkParameters
wrapped as \x7btype: contains\x7d (source line 96), whose type field is then a
plain object, so the recursive call throws; this is reproduced via
CType.cobj. -/
def checkArrayGo (rec : JValue → Constraint → String → Except String (Bool × String))
    (elems : List JValue) (c : Constraint) (path : String) : Except String (Bool × String) :=
  match arrayLenCheck c elems.length path with
  | some res => .ok res
  | none =>
    match c.containsOf with
    | some (.ctype s) => arrLoopFinish (arrLoopGo rec (freshTypeConstraint (.single s)) elems 0 path) path
    | some (.calts l) => arrLoopFinish (arrLoopGo rec (freshTypeConstraint (.alts l)) elems 0 path) path
    | some (.cmap _) => arrLoopFinish (arrLoopGo rec (freshTypeConstraint .cobj) elems 0 path) path
    | none => .ok (true, "Array contents match the constraints (" ++ path ++ ")")

/-- The required entries checkObject iterates with for-in: for a key-to-
constraint map, the bindings; for an array of key names, the array indices
as keys (JavaScript for-in over an array yields index strings) with no
nested constraint. -/
def requiredEntries : Required Constraint → List (String × Option Constraint)
  | .rmap m => m.map (fun (kv : String × Constraint) => (kv.1, some kv.2))
  | .rarr l => (List.range l.length).map (fun i => (toString i, none))

/-- The required-parameters loop of checkObject.  Reading a property of a
null parameters value throws a TypeError, exactly as in JavaScript; a
missing key is an early rejection; a nested constraint (any value of the
required map, which typeof reports as object) is checked recursively.
none means fall through to the stray-parameter loop. -/
def requiredLoopGo (rec : JValue → Constraint → String → Except String (Bool × String))
    (paramsOpt : Option (List (String × JValue))) :
    List (String × Option Constraint) → String → Except String (Option (Bool × String))
  | [], _ => .ok none
  | (key, subc) :: rest, path =>
    match paramsOpt with
    | none => .error "TypeError: Cannot read properties of null"
    | some fields =>
      match lookupField fields key with
      | none => .ok (some (false, "Object is missing required parameter \x27" ++ key ++ "\x27 (" ++ path ++ ")"))
      | some v =>
        match subc with
        | none => requiredLoopGo rec paramsOpt rest path
        | some sc =>
          match rec v sc (path ++ key ++ "/") with
          | .error e => .error e
          | .ok (false, subReason) => .ok (some (false, subReason))
          | .ok (true, _) => requiredLoopGo rec paramsOpt rest path

/-- JavaScript's `key in array` membership test used by the stray loop when
required is an array: true exactly for canonical decimal index strings
below the length. -/
def strayArrIndexMatch (l : List String) (key : String) : Bool :=
  match key.toNat? with
  | some n => n < l.length && toString n == key
  | none => false

/-- The stray-parameter loop of checkObject: a parameter is allowed when it
is a required key (value membership for an array-shaped required, then
JavaScript `in` membership), or an optional key (checked recursively when
the optional constraint carries a type field); anything else is a stray
parameter.  none means every parameter was accounted for. -/
def strayLoopGo (rec : JValue → Constraint → String → Except String (Bool × String))
    (reqEff : Option (Required Constraint)) (opt : Option (List (String × Constraint))) :
    List (String × JValue) → String → Except String (Option (Bool × String))
  | [], _ => .ok none
  | (key, v) :: rest, path =>
    if (match reqEff with | some (.rarr l) => l.contains key | _ => false) then
      strayLoopGo rec reqEff opt rest path
    else if (match reqEff with
             | some (.rmap m) => (m.find? (fun (kv : String × Constraint) => kv.1 == key)).isSome
             | some (.rarr l) => strayArrIndexMatch l key
             | none => false) then
      strayLoopGo rec reqEff opt rest path
    else
      match opt with
      | some o =>
        match o.find? (fun (kv : String × Constraint) => kv.1 == key) with
        | some oc =>
          if oc.2.ctypeOf.isSome then
            match rec v oc.2 (path ++ key ++ "/") with
            | .error e => .error e
            | .ok (false, subReason) => .ok (some (false, subReason))
            | .ok (true, _) => strayLoopGo rec reqEff opt rest path
          else strayLoopGo rec reqEff opt rest path
        | none => .ok (some (false, "Found stray parameter " ++ key ++ " (" ++ path ++ ")"))
      | none => .ok (some (false, "Found stray parameter " ++ key ++ " (" ++ path ++ ")"))

/-- The effective required field of checkObject: a contains that typeof
reports as an object (a key map or an array of names) is installed as
required when required is absent (source lines 108-110, the documented
synonym). -/
def effectiveRequired (c : Constraint) : Option (Required Constraint) :=
  match c.requiredOf with
  | some r => some r
  | none =>
    match c.containsOf with
    | some (.cmap m) => some (.rmap m)
    | some (.calts l) => some (.rarr l)
    | _ => none

/-- checkObject of src/checkParameters.js.  paramsOpt is none when the
parameters value is null (typeof null is "object", so checkParameters does
reach checkObject with null); JavaScript for-in over null iterates zero
times, hence the getD [] in the stray loop, while property reads on null
inside the required loop throw. -/
def checkObjectGo (rec : JValue → Constraint → String → Except String (Bool × String))
    (paramsOpt : Option (List (String × JValue))) (c : Constraint) (path : String) :
    Except String (Bool × String) :=
  let reqEff := effectiveRequired c
  if reqEff.isNone && c.optionalOf.isNone then
    .ok (true, "Object has no further constraints (" ++ path ++ ")")
  else
    match (match reqEff with
           | some r => requiredLoopGo rec paramsOpt (requiredEntries r) path
           | none => .ok none) with
    | .error e => .error e
    | .ok (some res) => .ok res
    | .ok none =>
      match strayLoopGo rec reqEff c.optionalOf (paramsOpt.getD []) path with
      | .error e => .error e
      | .ok (some res) => .ok res
      | .ok none => .ok (true, "Object matches the constraints (" ++ path ++ ")")

/-- The loop over alternative type names when the type field is an array
(source lines 24-31): recurse on the fresh constraint \x7btype: t\x7d, first
success wins; none means every alternative rejected. -/
def altsLoopGo (rec : JValue → Constraint → String → Except String (Bool × String))
    (params : JValue) : List String → Nat → String → Option (Except String (Bool × String))
  | [], _, _ => none
  | t :: rest, i, path =>
    match rec params (freshTypeConstraint (.single t)) ("<" ++ toString i ++ ">" ++ path) with
    | .error e => some (.error e)
    | .ok (true, r) => some (.ok (true, r))
    | .ok (false, _) => altsLoopGo rec params rest (i + 1) path

/-- checkParameters of src/checkParameters.js for a single constraint
object, with recursion bounded by fuel.  The top-level branch for an array
of whole constraint objects (source lines 12-19) is not modelled here
because Rpc._execute iterates the (already normalized) list of alternative
constraints itself and calls checkParameters once per alternative.  A type
field that is a plain object throws; string, number, boolean and every
unknown type name share the final typeof comparison, exactly as the switch
falls through to default. -/
def cpFuel : Nat → JValue → Constraint → String → Except String (Bool × String)
  | 0, _, _, _ => .error "model recursion fuel exhausted"
  | fuel + 1, params, c, path =>
    match c.ctypeOf with
    | some (.alts l) =>
      match altsLoopGo (cpFuel fuel) params l 0 path with
      | some res => res
      | none => .ok (false, "Constraints specify to accept any of " ++ String.intercalate ", " l ++ " (" ++ path ++ ")")
    | none => .ok (true, "Constraints don\x27t specify a type")
    | some .cobj => .error "Expected constraints to contain a type (string)"
    | some (.single s) =>
      if s = "any" then
        .ok (true, "Constraints specify to accept everything (" ++ path ++ ")")
      else if s = "none" ∨ s = "null" then
        .ok (params.isNull, "Constraints specify to accept no parameters (" ++ path ++ ")")
      else if s = "array" then
        match params with
        | .jarr elems => checkArrayGo (cpFuel fuel) elems c path
        | _ => .ok (false, "Constraints specify to accept an array (" ++ path ++ ")")
      else if s = "object" then
        match params with
        | .jarr _ => .ok (false, "Constraints specify to accept an object, not an array (" ++ path ++ ")")
        | .jobj fields => checkObjectGo (cpFuel fuel) (some fields) c path
        | .jnull => checkObjectGo (cpFuel fuel) none c path
        | _ => .ok (false, "Constraints specify to accept an object (" ++ path ++ ")")
      else
        .ok (typeofStr params == s, "Constraints specify to accept a " ++ s ++ " (" ++ path ++ ")")

/-- checkParameters with the standard entry fuel: the recursion depth is
bounded by the nesting depth of the constraint (loop helpers are
structural on their lists and consume no fuel), so this fuel is always
sufficient; no theorem below depends on fuel adequacy. -/
def checkParameters (params : JValue) (c : Constraint) (path : String) :
    Except String (Bool × String) :=
  cpFuel (Constraint.csize c + 2) params c path

/-- Shorthand: a simple constraint carrying only a type name. -/
def typeOnly (s : String) : Constraint := freshTypeConstraint (.single s)

-- Fidelity checks against test/checkParameters.test.js.
example : checkParameters .jnull (typeOnly "none") "/" = .ok (true, "Constraints specify to accept no parameters (/)") := rfl
example : checkParameters (.jstr "test") (typeOnly "none") "/" = .ok (false, "Constraints specify to accept no parameters (/)") := rfl
example : checkParameters .jnull (typeOnly "null") "/" = .ok (true, "Constraints specify to accept no parameters (/)") := rfl
example : checkParameters (.jstr "test") (typeOnly "string") "/" = .ok (true, "Constraints specify to accept a string (/)") := rfl
example : checkParameters (.jnum 123) (typeOnly "string") "/" = .ok (false, "Constraints specify to accept a string (/)") := rfl
example : checkParameters .jnull (typeOnly "string") "/" = .ok (false, "Constraints specify to accept a string (/)") := rfl
example : checkParameters (.jbool false) (typeOnly "number") "/" = .ok (false, "Constraints specify to accept a number (/)") := rfl
example : checkParameters (.jbool true) (typeOnly "boolean") "/" = .ok (true, "Constraints specify to accept a boolean (/)") := rfl
example : checkParameters (.jarr []) (typeOnly "array") "/" = .ok (true, "Array contents match the constraints (/)") := rfl
example : checkParameters (.jstr "test") (typeOnly "array") "/" = .ok (false, "Constraints specify to accept an array (/)") := rfl
example : checkParameters (.jarr [.jnum 1]) (.mk (some (.single "array")) none (some 2) none none none none) "/"
    = .ok (false, "Expected an array with at least 2 elements, found 1 elements (/)") := rfl
example : checkParameters (.jarr [.jnum 1, .jnum 2, .jnum 3]) (.mk (some (.single "array")) none none (some 2) none none none) "/"
    = .ok (false, "Expected an array with at most 2 elements, found 3 elements (/)") := rfl
example : checkParameters (.jarr []) (.mk (some (.single "array")) (some 2) none none none none none) "/"
    = .ok (false, "Expected an array with 2 elements, found 0 elements (/)") := rfl
example : checkParameters (.jarr [.jnum 1, .jstr "test", .jnum 3]) (.mk (some (.single "array")) none none none (some (.ctype "number")) none none) "/"
    = .ok (false, "Constraints specify to accept a number ([1]/)") := rfl
example : checkParameters (.jarr [.jnum 1, .jstr "test", .jnum 3]) (.mk (some (.single "array")) none none none (some (.calts ["number", "boolean"])) none none) "/"
    = .ok (false, "Constraints specify to accept any of number, boolean ([1]/)") := rfl
example : checkParameters (.jarr [.jbool true]) (.mk (some (.single "array")) none none none (some (.calts ["number", "boolean"])) none none) "/"
    = .ok (true, "Array contents match the constraints (/)") := rfl
example : checkParameters (.jobj []) (typeOnly "object") "/" = .ok (true, "Object has no further constraints (/)") := rfl
example : checkParameters (.jarr []) (typeOnly "object") "/" = .ok (false, "Constraints specify to accept an object, not an array (/)") := rfl
example : checkParameters (.jobj [("test", .jnum 123)]) (.mk (some (.single "object")) none none none none (some (.rmap [("test", .mk none none none none none none none)])) none) "/"
    = .ok (true, "Object matches the constraints (/)") := rfl
example : checkParameters (.jobj []) (.mk (some (.single "object")) none none none none (some (.rmap [("test1", .mk none none none none none none none)])) none) "/"
    = .ok (false, "Object is missing required parameter \x27test1\x27 (/)") := rfl
example : checkParameters (.jobj [("test1", .jnum 123), ("test2", .jnum 456)]) (.mk (some (.single "object")) none none none none (some (.rmap [("test1", .mk none none none none none none none)])) none) "/"
    = .ok (false, "Found stray parameter test2 (/)") := rfl
example : checkParameters (.jobj [("test", .jnum 123)]) (.mk (some (.single "object")) none none none none none (some [("test", .mk none none none none none none none)])) "/"
    = .ok (true, "Object matches the constraints (/)") := rfl
example : checkParameters (.jobj [("test1", .jnum 123), ("test2", .jnum 456), ("test3", .jnum 789)]) (.mk (some (.single "object")) none none none none (some (.rmap [("test1", .mk none none none none none none none)])) (some [("test2", .mk none none none none none none none)])) "/"
    = .ok (false, "Found stray parameter test3 (/)") := rfl

/-- A transport connection as the session layer sees it: the core only ever
calls send on it, so the model records whether send fails (rejects).  The
lazily assigned identifier is the key it is stored under. -/
structure Connection where
  sendFails : Bool

/-- Modelled from the spec: the Principal (user account) is an external
collaborator, out of scope of src/, consumed through an optional
capability interface; it optionally exposes getPermissions() returning a
permission list and checkPermission(name) deciding that list's membership.
The two capability flags model which of the duck-typed functions the
concrete principal object implements. -/
structure Principal where
  permissions : List String
  hasGetPermissions : Bool
  hasCheckPermission : Bool

/-- Modelled from the spec: the principal's checkPermission capability
decides exact membership of its permission list. -/
def Principal.checkPermissionFn (u : Principal) (m : String) : Bool :=
  u.permissions.contains m

/-- A bearer session (Session class of the 2022 session module):
identifier, timestamps, own permission list, optional principal,
per-connection subscription sets and connection table. -/
structure Session where
  id : String
  dateCreated : Int
  dateLastUsed : Int
  permissions : List String
  user : Option Principal
  subscriptions : List (String × List String)
  connections : List (String × Connection)

/-- Session.use(): refresh the last-used timestamp. -/
def Session.touch (s : Session) (now : Int) : Session :=
  { s with dateLastUsed := now }

/-- Session.getPermissions(): the session's own list concatenated with the
principal's getPermissions() when a principal exposing it is attached. -/
def Session.getPermissions (s : Session) : List String :=
  s.permissions ++
    (match s.user with
     | some u => if u.hasGetPermissions then u.permissions else []
     | none => [])

/-- Session.checkPermission of the 2022 session module: exact string
equality against the session's own permissions, then delegation to the
principal's checkPermission when implemented. -/
def Session.checkPermission (s : Session) (m : String) : Bool :=
  if s.permissions.contains m then true
  else
    match s.user with
    | some u => u.hasCheckPermission && Principal.checkPermissionFn u m
    | none => false

/-- Session.addPermission: append when absent, reporting whether the set
changed. -/
def Session.addPermission (s : Session) (p : String) : Bool × Session :=
  if s.permissions.contains p then (false, s)
  else (true, { s with permissions := s.permissions ++ [p] })

/-- Session.removePermission: filter out when present, reporting whether the
set changed. -/
def Session.removePermission (s : Session) (p : String) : Bool × Session :=
  if s.permissions.contains p then
    (true, { s with permissions := s.permissions.filter (fun x => x != p) })
  else (false, s)

/-- The push envelope Session.push serializes for each subscribed
connection. -/
def pushEnvelope (subject : String) (message : JValue) : JValue :=
  .jobj [("pushMessage", .jbool true), ("subject", .jstr subject), ("message", message)]

def lookupConn (conns : List (String × Connection)) (cid : String) : Option Connection :=
  (conns.find? (fun p => p.1 == cid)).map Prod.snd

/-- The fan-out loop of Session.push (2022 module): iterate the
subscription map in order; for each connection subscribed to the subject,
await connection.send(envelope).  A rejected send (or a connection missing
from the connection table) makes the awaited call throw, aborting the loop
and the whole push; the envelopes delivered so far are returned alongside
for observation. -/
def Session.pushLoop (conns : List (String × Connection)) (subject : String) (message : JValue) :
    List (String × List String) → Bool → List (String × JValue) →
    Except String Bool × List (String × JValue)
  | [], result, delivered => (.ok result, delivered)
  | (cid, topics) :: rest, result, delivered =>
    if topics.contains subject then
      match lookupConn conns cid with
      | none => (.error "TypeError: Cannot read properties of undefined", delivered)
      | some conn =>
        if conn.sendFails then (.error "send failed", delivered)
        else Session.pushLoop conns subject message rest true
          (delivered ++ [(cid, pushEnvelope subject message)])
    else Session.pushLoop conns subject message rest result delivered

/-- Session.push(subject, message): fan out to every subscribed connection;
returns whether anything was sent, plus the delivery log. -/
def Session.push (s : Session) (subject : String) (message : JValue) :
    Except String Bool × List (String × JValue) :=
  Session.pushLoop s.connections subject message s.subscriptions false []

/-- SessionManager.getSession(token): first session whose identifier is
strictly equal to the token (JavaScript === between a string identifier and
an arbitrary token value is false unless the token is that string). -/
def SessionManager.getSession (sessions : List Session) (token : JValue) : Option Session :=
  sessions.find? (fun s => match token with | .jstr t => s.id == t | _ => false)

/-- SessionManager._gc: with no timeout configured the sweep returns
immediately; otherwise it keeps exactly the sessions with
now - lastUsedAt < timeout. -/
def SessionManager.gc (timeout : Option Int) (now : Int) (sessions : List Session) : List Session :=
  match timeout with
  | none => sessions
  | some t => sessions.filter (fun s => now - s.dateLastUsed < t)

/-- The in-place session.use() of Rpc._execute, applied to the session
store: every stored session with the resolved identifier gets the fresh
timestamp (the source mutates the single shared object). -/
def SessionManager.touchAll (sessions : List Session) (sid : String) (now : Int) : List Session :=
  sessions.map (fun x => if x.id == sid then Session.touch x now else x)

/-- The keys of the dispatcher's error-template table Rpc._errors. -/
inductive ErrKey : Type where
  | parse
  | invalid
  | method
  | parameters
  | internal
  | permission
  | invalidToken
  | returnString
  | returnError
  | returnCustom
deriving DecidableEq

/-- The mutable error-template table Rpc._errors: one shared object per
kind, mutated in place by the Object.assign calls of the dispatcher. -/
structure ErrorTable where
  parse : List (String × JValue)
  invalid : List (String × JValue)
  method : List (String × JValue)
  parameters : List (String × JValue)
  internal : List (String × JValue)
  permission : List (String × JValue)
  invalidToken : List (String × JValue)
  returnString : List (String × JValue)
  returnError : List (String × JValue)
  returnCustom : List (String × JValue)

def errGet (t : ErrorTable) : ErrKey → List (String × JValue)
  | .parse => t.parse
  | .invalid => t.invalid
  | .method => t.method
  | .parameters => t.parameters
  | .internal => t.internal
  | .permission => t.permission
  | .invalidToken => t.invalidToken
  | .returnString => t.returnString
  | .returnError => t.returnError
  | .returnCustom => t.returnCustom

def errSet (t : ErrorTable) : ErrKey → List (String × JValue) → ErrorTable
  | .parse, v => { t with parse := v }
  | .invalid, v => { t with invalid := v }
  | .method, v => { t with method := v }
  | .parameters, v => { t with parameters := v }
  | .internal, v => { t with internal := v }
  | .permission, v => { t with permission := v }
  | .invalidToken, v => { t with invalidToken := v }
  | .returnString, v => { t with returnString := v }
  | .returnError, v => { t with returnError := v }
  | .returnCustom, v => { t with returnCustom := v }

/-- The initial contents of Rpc._errors as built by the constructor. -/
def initErrors : ErrorTable where
  parse := [("code", .jnum (-32700)), ("message", .jstr "Parse error")]
  invalid := [("code", .jnum (-32600)), ("message", .jstr "Invalid Request")]
  method := [("code", .jnum (-32601)), ("message", .jstr "Method not found")]
  parameters := [("code", .jnum (-32602)), ("message", .jstr "Invalid params")]
  internal := [("code", .jnum (-32603)), ("message", .jstr "Internal error")]
  permission := [("code", .jnum (-32000)), ("message", .jstr "Access denied")]
  invalidToken := [("code", .jnum (-32001)), ("message", .jstr "Invalid token")]
  returnString := [("code", .jnum (-32002)), ("message", .jstr "")]
  returnError := [("code", .jnum (-32003)), ("message", .jstr "")]
  returnCustom := [("code", .jnum (-32004)), ("message", .jstr "")]

/-- The outcome of invoking a registered handler: a returned value, or a
thrown string / Error instance / plain object / other value, matching the
classification of Rpc._handle's catch clause.  Handlers are modelled as
pure functions of the parameters and the resolved session. -/
inductive HandlerOutcome : Type where
  | ok (v : JValue)
  | throwString (s : String)
  | throwError (msg : String)
  | throwCustom (fields : List (String × JValue))
  | throwOther

/-- A registry entry of Rpc._methods (legacy validator path: the Ajv
validators are null when Ajv is unavailable, so ajvValidateParameters is
not modelled; addMethod normalizes the parameter schema to a list of
alternatives). -/
structure MethodEntry where
  handler : JValue → Option Session → HandlerOutcome
  parameterSchema : Option (List Constraint)
  isPublic : Bool

/-- The dispatcher state: the method registry, the optional session
manager's session store, and the mutable error-template table. -/
structure RpcState where
  methods : List (String × MethodEntry)
  sessionManager : Option (List Session)
  errors : ErrorTable

def lookupMethod (ms : List (String × MethodEntry)) (name : String) : Option MethodEntry :=
  (ms.find? (fun p => p.1 == name)).map Prod.snd

/-- What Rpc._execute produces: a value, or a thrown error: a reference to
one of the shared templates (the dispatcher's own throws), or a handler
throw of each classified kind. -/
inductive ExecResult : Type where
  | ok (v : JValue)
  | errRef (k : ErrKey)
  | errString (s : String)
  | errError (msg : String)
  | errCustom (fields : List (String × JValue))
  | errOther

def outcomeToExec : HandlerOutcome → ExecResult
  | .ok v => .ok v
  | .throwString s => .errString s
  | .throwError m => .errError m
  | .throwCustom f => .errCustom f
  | .throwOther => .errOther

/-- The legacy validation loop of Rpc._execute (source lines 241-252): try
each alternative in order, updating the reason each time, accepting on the
first success; the second argument is the reason accumulator, initially
the empty string.  A validator throw propagates. -/
def validateParams (p : JValue) : List Constraint → String → Except String (Bool × String)
  | [], reason => .ok (false, reason)
  | c :: rest, _ =>
    match checkParameters p c "/" with
    | .error e => .error e
    | .ok (true, r) => .ok (true, r)
    | .ok (false, r) => validateParams p rest r

/-- Steps 3 and 4 of Rpc._execute: parameter validation (skipped when the
schema is null/undefined) and handler invocation.  On total validation
failure the shared parameters template is mutated by
Object.assign(this._errors.parameters, \x7breason: reason\x7d) and thrown. -/
def Rpc.runChecked (st : RpcState) (entry : MethodEntry) (params : JValue)
    (sess : Option Session) : ExecResult × RpcState :=
  match entry.parameterSchema with
  | none => (outcomeToExec (entry.handler params sess), st)
  | some schema =>
    match validateParams params schema "" with
    | .error e => (.errError e, st)
    | .ok (true, _) => (outcomeToExec (entry.handler params sess), st)
    | .ok (false, reason) =>
      (.errRef .parameters,
       { st with errors := (errSet st.errors .parameters
           (objAssign (errGet st.errors .parameters) [("reason", .jstr reason)])) })

/-- Rpc._execute: method lookup, session resolution and permission gate
(skipped entirely when no session manager is configured), parameter
validation, handler invocation.  session.use() refreshes the stored
session's timestamp before the permission check; setConnection only binds
the connection for push addressing and does not influence dispatch, so it
is not modelled here. -/
def Rpc.execute (st : RpcState) (now : Int) (method : String) (params token : JValue) :
    ExecResult × RpcState :=
  match lookupMethod st.methods method with
  | none => (.errRef .method, st)
  | some entry =>
    match st.sessionManager with
    | none => Rpc.runChecked st entry params none
    | some sessions =>
      if token.isNull then
        if entry.isPublic then Rpc.runChecked st entry params none
        else (.errRef .permission, st)
      else
        match SessionManager.getSession sessions token with
        | none => (.errRef .invalidToken, st)
        | some s =>
          let s' := Session.touch s now
          let st' := { st with sessionManager := some (SessionManager.touchAll sessions s.id now) }
          if entry.isPublic || Session.checkPermission s' method then
            Rpc.runChecked st' entry params (some s')
          else (.errRef .permission, st')

/-- A response envelope before serialization: the error field is null or a
reference to one of the shared error templates. -/
structure Response where
  id : JValue
  result : JValue
  error : Option ErrKey

/-- The envelope guard of Rpc._handle (source line 267): the request must
be typeof object with a string jsonrpc field equal to "2.0", a present id
field, and a string method field. -/
def validEnvelope (request : JValue) : Bool :=
  (typeofStr request == "object") &&
  (match getField request "jsonrpc" with | some (.jstr v) => v == "2.0" | _ => false) &&
  (getField request "id").isSome &&
  (match getField request "method" with | some (.jstr _) => true | _ => false)

def methodOf (request : JValue) : String :=
  match getField request "method" with | some (.jstr m) => m | _ => ""

def paramsOf (request : JValue) : JValue := (getField request "params").getD .jnull

def tokenOf (request : JValue) : JValue := (getField request "token").getD .jnull

def idOf (request : JValue) : JValue := (getField request "id").getD .jnull

/-- Rpc._handle: envelope validation, execution, and the catch clause that
classifies failures.  The JavaScript body reads request.jsonrpc before the
null check can reject, so a null request makes _handle itself throw a
TypeError (modelled as Except.error).  A thrown string is merged into the
returnString template; a thrown Error into returnError (with the
"Access denied" remap to the permission template, the returnError template
staying mutated); a thrown plain object, which includes every template
reference thrown by _execute, is merged into the returnCustom template;
anything else maps to the internal template. -/
def Rpc.handleOneBody (st : RpcState) (now : Int) (request : JValue) :
    Response × RpcState :=
  if !(validEnvelope request) then
    ({ id := .jnull, result := .jnull, error := some .invalid }, st)
  else
    let (res, st') := Rpc.execute st now (methodOf request) (paramsOf request) (tokenOf request)
    match res with
    | .ok v => ({ id := idOf request, result := v, error := none }, st')
    | .errString s =>
      ({ id := idOf request, result := .jnull, error := some .returnString },
       { st' with errors := (errSet st'.errors .returnString
           (objAssign (errGet st'.errors .returnString) [("message", .jstr s)])) })
    | .errError msg =>
      let st'' := { st' with errors := (errSet st'.errors .returnError
          (objAssign (errGet st'.errors .returnError) [("message", .jstr msg)])) }
      let k := if msg = "Access denied" then ErrKey.permission else ErrKey.returnError
      ({ id := idOf request, result := .jnull, error := some k }, st'')
    | .errRef k =>
      ({ id := idOf request, result := .jnull, error := some .returnCustom },
       { st' with errors := (errSet st'.errors .returnCustom
           (objAssign (errGet st'.errors .returnCustom) (errGet st'.errors k))) })
    | .errCustom fields =>
      ({ id := idOf request, result := .jnull, error := some .returnCustom },
       { st' with errors := (errSet st'.errors .returnCustom
           (objAssign (errGet st'.errors .returnCustom) fields)) })
    | .errOther =>
      ({ id := idOf request, result := .jnull, error := some .internal }, st')

/-- Rpc._handle: a null request makes the body throw a TypeError while
reading request.jsonrpc (modelled as Except.error); every other request is
handled by Rpc.handleOneBody. -/
def Rpc.handleOne (st : RpcState) (now : Int) (request : JValue) :
    Except String (Response × RpcState) :=
  match request with
  | .jnull => .error "TypeError: Cannot read properties of null"
  | _ => .ok (Rpc.handleOneBody st now request)

/-- Serialization of a response at JSON.stringify time: the error reference
is resolved against the final state of the template table. -/
def resolveResponse (tbl : ErrorTable) (r : Response) : JValue :=
  .jobj [("jsonrpc", .jstr "2.0"), ("id", r.id), ("result", r.result),
         ("error", match r.error with | none => .jnull | some k => .jobj (errGet tbl k))]

/-- The batch loop of Rpc.handle: one _handle per element, in input order
(handlers are pure and _execute contains no suspension point, so the
Promise.all of the source resolves the members in creation order); a
member that makes _handle throw rejects the whole batch. -/
def Rpc.handleBatch : RpcState → Int → List JValue → Except String (List Response × RpcState)
  | st, _, [] => .ok ([], st)
  | st, now, r :: rest =>
    match Rpc.handleOne st now r with
    | .error e => .error e
    | .ok (resp, st') =>
      match Rpc.handleBatch st' now rest with
      | .error e => .error e
      | .ok (rs, st'') => .ok (resp :: rs, st'')

/-- Rpc.handle on a pre-parsed request (the JSON-text branch of the source
parses a string input first and is outside this model): non-objects are
rejected with a single InvalidRequest envelope; an array is a batch whose
responses are serialized together, after all members ran, against the
final template table; a bare object produces a bare response. -/
def Rpc.handle (st : RpcState) (now : Int) (request : JValue) :
    Except String (JValue × RpcState) :=
  if typeofStr request != "object" || request.isNull then
    .ok (resolveResponse st.errors { id := .jnull, result := .jnull, error := some .invalid }, st)
  else
    match request with
    | .jarr elems =>
      match Rpc.handleBatch st now elems with
      | .error e => .error e
      | .ok (rs, st') => .ok (.jarr (rs.map (resolveResponse st'.errors)), st')
    | _ =>
      match Rpc.handleOne st now request with
      | .error e => .error e
      | .ok (resp, st') => .ok (resolveResponse st'.errors resp, st')

/-- The error object of a serialized response. -/
def outputErr (out : JValue) : Option JValue := getField out "error"

/-- A field of the error object of a serialized response. -/
def outputErrField (out : JValue) (k : String) : Option JValue :=
  match getField out "error" with
  | some (.jobj e) => lookupField e k
  | _ => none

-- Fidelity checks: the scenarios of spec section 8.
def echoState : RpcState :=
  { methods := [("echo",
      { handler := fun p _ => .ok p,
        parameterSchema := some [typeOnly "string"],
        isPublic := true }),
     ("priv",
      { handler := fun _ _ => .ok (.jstr "secret"),
        parameterSchema := none,
        isPublic := false })],
    sessionManager := some [],
    errors := initErrors }

example :
    Rpc.handle echoState 0
      (.jobj [("jsonrpc", .jstr "2.0"), ("id", .jnum 1), ("method", .jstr "echo"), ("params", .jstr "hi")])
    = .ok (.jobj [("jsonrpc", .jstr "2.0"), ("id", .jnum 1), ("result", .jstr "hi"), ("error", .jnull)],
           echoState) := rfl

example :
    ((Rpc.handle echoState 0
        (.jobj [("jsonrpc", .jstr "2.0"), ("id", .jnum 2), ("method", .jstr "missing")])).toOption.bind
      (fun pr => outputErrField pr.1 "code")) = some (.jnum (-32601)) := rfl

example :
    ((Rpc.handle echoState 0
        (.jobj [("jsonrpc", .jstr "2.0"), ("id", .jnum 3), ("method", .jstr "priv")])).toOption.bind
      (fun pr => outputErrField pr.1 "code")) = some (.jnum (-32000)) := rfl

example :
    ((Rpc.handle echoState 0
        (.jobj [("jsonrpc", .jstr "2.0"), ("id", .jnum 4), ("method", .jstr "priv"), ("token", .jstr "zzz")])).toOption.bind
      (fun pr => outputErrField pr.1 "code")) = some (.jnum (-32001)) := rfl

example :
    ((Rpc.handle echoState 0
        (.jobj [("jsonrpc", .jstr "2.0"), ("id", .jnum 5), ("method", .jstr "echo"), ("params", .jnum 9)])).toOption.bind
      (fun pr => outputErrField pr.1 "code")) = some (.jnum (-32602)) := rfl

/-- The serialized output of a handle call, when handle did not itself
throw. -/
def handleOutput (st : RpcState) (now : Int) (req : JValue) : Option JValue :=
  (Rpc.handle st now req).toOption.map Prod.fst

/-- The final dispatcher state of a handle call. -/
def handleState (st : RpcState) (now : Int) (req : JValue) : Option RpcState :=
  (Rpc.handle st now req).toOption.map Prod.snd

/-- Member i of a serialized batch output. -/
def batchItem (out : Option JValue) (i : Nat) : Option JValue :=
  out.bind (fun o => match o with | .jarr l => l.get? i | _ => none)

/-- A concrete fresh session used as the witness input for C9. -/
def w9Session : Session :=
  { id := "w9", dateCreated := 0, dateLastUsed := 0, permissions := [],
    user := none, subscriptions := [], connections := [] }

/-- A concrete session for the idle-sweep claims: last used at time 0. -/
def gcSession : Session :=
  { id := "s1", dateCreated := 0, dateLastUsed := 0, permissions := [],
    user := none, subscriptions := [], connections := [] }

/-- A session with two live connections, only A subscribed to topic t, all
sends succeeding. -/
def pushSessionOk : Session :=
  { id := "ps", dateCreated := 0, dateLastUsed := 0, permissions := [], user := none,
    subscriptions := [("A", ["t"]), ("B", ["other"])],
    connections := [("A", { sendFails := false }), ("B", { sendFails := false })] }

/-- A session with connections A and B both subscribed to topic t, where
A's send rejects. -/
def pushSessionFail : Session :=
  { id := "pf", dateCreated := 0, dateLastUsed := 0, permissions := [], user := none,
    subscriptions := [("A", ["t"]), ("B", ["t"])],
    connections := [("A", { sendFails := true }), ("B", { sendFails := false })] }

/-- A dispatcher with one public method whose handler throws the string
"boom". -/
def c7State : RpcState :=
  { methods := [("boom",
      { handler := fun _ _ => .throwString "boom", parameterSchema := none, isPublic := true })],
    sessionManager := none,
    errors := initErrors }

/-- A dispatcher with two public methods throwing different strings. -/
def c7BatchState : RpcState :=
  { methods := [("boomA",
      { handler := fun _ _ => .throwString "aaa", parameterSchema := none, isPublic := true }),
     ("boomB",
      { handler := fun _ _ => .throwString "bbb", parameterSchema := none, isPublic := true })],
    sessionManager := none,
    errors := initErrors }

/-- A dispatcher with a null session manager and a private method whose
handler throws an Error with message "Access denied". -/
def c10State : RpcState :=
  { methods := [("priv2",
      { handler := fun _ _ => .throwError "Access denied", parameterSchema := none,
        isPublic := false })],
    sessionManager := none,
    errors := initErrors }

def c10Req : JValue :=
  .jobj [("jsonrpc", .jstr "2.0"), ("id", .jnum 1), ("method", .jstr "priv2"),
         ("token", .jstr "whatever")]

/-- A dispatcher with two public schemaless methods throwing the strings
"alpha" and "beta". -/
def c5State : RpcState :=
  { methods := [("a",
      { handler := fun _ _ => .throwString "alpha", parameterSchema := none, isPublic := true }),
     ("b",
      { handler := fun _ _ => .throwString "beta", parameterSchema := none, isPublic := true })],
    sessionManager := none,
    errors := initErrors }

def c5ReqA : JValue := .jobj [("jsonrpc", .jstr "2.0"), ("id", .jnum 1), ("method", .jstr "a")]

def c5ReqB : JValue := .jobj [("jsonrpc", .jstr "2.0"), ("id", .jnum 2), ("method", .jstr "b")]

/-- A dispatcher with one public method that returns null. -/
def c3State : RpcState :=
  { methods := [("n",
      { handler := fun _ _ => .ok .jnull, parameterSchema := none, isPublic := true })],
    sessionManager := none,
    errors := initErrors }

def c3Req : JValue := .jobj [("jsonrpc", .jstr "2.0"), ("id", .jnum 1), ("method", .jstr "n")]

/-- The C1 counterexample schema: a single alternative accepting an array
whose contains field is a plain object, which checkArray passes back to
checkParameters wrapped as a type field, making the validator throw. -/
def c1BadConstraint : Constraint :=
  .mk (some (.single "array")) none none none (some (.cmap [])) none none

def c1State : RpcState :=
  { methods := [("m",
      { handler := fun _ _ => .ok (.jstr "done"),
        parameterSchema := some [c1BadConstraint], isPublic := true })],
    sessionManager := none,
    errors := initErrors }

def c1Req : JValue :=
  .jobj [("jsonrpc", .jstr "2.0"), ("id", .jnum 1), ("method", .jstr "m"),
         ("params", .jarr [.jnull])]

/-- A concrete session and dispatcher for the C2 witness: the session's own
permission list contains the private method name. -/
def c2wSession : Session :=
  { id := "tok1", dateCreated := 0, dateLastUsed := 0, permissions := ["secret"],
    user := none, subscriptions := [], connections := [] }

def c2wEntry : MethodEntry :=
  { handler := fun _ _ => .ok (.jstr "ok"), parameterSchema := none, isPublic := false }

def c2wState : RpcState :=
  { methods := [("secret", c2wEntry)],
    sessionManager := some [c2wSession],
    errors := initErrors }

/-- A concrete dispatcher for the C1 witness: a public echo method whose
schema is the single alternative string. -/
def c1wState : RpcState :=
  { methods := [("wecho",
      { handler := fun q _ => .ok q, parameterSchema := some [typeOnly "string"],
        isPublic := true })],
    sessionManager := none,
    errors := initErrors }

/-- The benign-handler condition of the amended C10: the handler does not
fail in a way Rpc._handle classifies to the AccessDenied or InvalidToken
codes (an Error with message "Access denied", or a thrown object carrying
a code field of -32000 or -32001). -/
def HandlerBenign : HandlerOutcome → Prop
  | .throwError msg => msg ≠ "Access denied"
  | .throwCustom fields =>
      ∀ v, ("code", v) ∈ fields → v ≠ .jnum (-32000) ∧ v ≠ .jnum (-32001)
  | _ => True

/-- Witness for C10 (amended) at a concrete dispatcher: a private method
with a benign handler, called with an arbitrary token, is still executed
(token ignored) and yields neither a -32000 nor a -32001 code. -/
def c10wState : RpcState :=
  { methods := [("p10",
      { handler := fun _ _ => .ok (.jstr "ran"), parameterSchema := none,
        isPublic := false })],
    sessionManager := none,
    errors := initErrors }

/-- The type names under which checkParameters accepts a null value: any
accepts everything, none and null name null itself, and typeof null is
"object" so a bare object type accepts null too. -/
def nullTypeNameAccepts (s : String) : Bool :=
  s == "any" || s == "none" || s == "null" || s == "object"

/-- Whether checkObject would iterate at least one required entry for this
constraint (its required field, or its contains used as the required
synonym). -/
def reqEntriesNonempty (c : Constraint) : Bool :=
  match effectiveRequired c with
  | none => false
  | some r => !(requiredEntries r).isEmpty

/-- The null-acceptance predicate of the amended C6: no type, or a single
(or alternative) type among any, none, null, object — except that an
object type with required entries does not accept null (it throws). -/
def nullAccept (c : Constraint) : Bool :=
  match c.ctypeOf with
  | none => true
  | some .cobj => false
  | some (.single s) =>
    if s = "object" then !(reqEntriesNonempty c) else nullTypeNameAccepts s
  | some (.alts l) => l.any nullTypeNameAccepts

/-- The null-throw predicate of the amended C6: an ill-formed object type
field throws for every input, and an object type with required entries
makes checkObject read a property of null. -/
def nullThrows (c : Constraint) : Bool :=
  match c.ctypeOf with
  | some .cobj => true
  | some (.single s) => if s = "object" then reqEntriesNonempty c else false
  | _ => false

/-- A concrete dispatcher and batch for the amended C5. -/
def c5wState : RpcState :=
  { methods := [], sessionManager := none, errors := initErrors }

def c5wBatch : List JValue :=
  [.jobj [("jsonrpc", .jstr "2.0"), ("id", .jnum 1), ("method", .jstr "m")]]

/-- C9: addPermission and removePermission are idempotent set operations
reporting whether membership changed: an immediately repeated identical
call returns false and leaves the permission set unchanged, the first call
returns true exactly when it changes membership, and a true return really
changed the stored set. -/
theorem C9_permission_mutation_idempotent (s : Session) (p : String) :
    (Session.addPermission (Session.addPermission s p).2 p
      = (false, (Session.addPermission s p).2)) ∧
    (Session.removePermission (Session.removePermission s p).2 p
      = (false, (Session.removePermission s p).2)) ∧
    ((Session.addPermission s p).1 = true ↔ s.permissions.contains p = false) ∧
    ((Session.removePermission s p).1 = true ↔ s.permissions.contains p = true) ∧
    (s.permissions.contains p = false →
      (Session.addPermission s p).2.permissions ≠ s.permissions) ∧
    (s.permissions.contains p = true →
      (Session.removePermission s p).2.permissions ≠ s.permissions) := by
  by_cases h : p ∈ s.permissions
  · refine ⟨?_, ?_, ?_, ?_, ?_, ?_⟩
    · simp [Session.addPermission, List.contains, h]
    · simp [Session.removePermission, List.contains, List.mem_filter, h]
    · simp [Session.addPermission, List.contains, h]
    · simp [Session.removePermission, List.contains, h]
    · intro hcf
      simp [List.contains, h] at hcf
    · intro _ heq
      have hrm : (Session.removePermission s p).2.permissions
          = s.permissions.filter (fun x => x != p) := by
        simp [Session.removePermission, List.contains, h]
      rw [hrm] at heq
      have hnp : p ∉ s.permissions.filter (fun x => x != p) := by
        simp [List.mem_filter]
      rw [heq] at hnp
      exact hnp h
  · refine ⟨?_, ?_, ?_, ?_, ?_, ?_⟩
    · simp [Session.addPermission, List.contains, h]
    · simp [Session.removePermission, List.contains, h]
    · simp [Session.addPermission, List.contains, h]
    · simp [Session.removePermission, List.contains, h]
    · intro _
      have hadd : (Session.addPermission s p).2.permissions = s.permissions ++ [p] := by
        simp [Session.addPermission, List.contains, h]
      rw [hadd]
      intro heq
      have hlen := congrArg List.length heq
      simp at hlen
    · intro hcf
      simp [List.contains, h] at hcf

/-- Witness for C9 at a concrete session and permission string. -/
theorem C9_permission_mutation_idempotent_witness :
    Session.addPermission (Session.addPermission w9Session "m").2 "m"
      = (false, (Session.addPermission w9Session "m").2) :=
  (C9_permission_mutation_idempotent w9Session "m").1

/-- C4, counterexample: the claim says the sweep removes a session exactly
when now minus lastUsedAt exceeds (is strictly greater than) the timeout,
but SessionManager._gc keeps only sessions with now - lastUsedAt strictly
below the timeout, so at now - lastUsedAt equal to the timeout the session
is removed although the idle time does not exceed the timeout. -/
theorem C4_counterexample :
    ¬ (∀ (t now : Int) (ss : List Session) (s : Session), s ∈ ss →
        (s ∉ SessionManager.gc (some t) now ss ↔ now - s.dateLastUsed > t)) := by
  intro h
  have h1 := (h 10 10 [gcSession] gcSession (by simp)).mp
  have h2 : gcSession ∉ SessionManager.gc (some 10) 10 [gcSession] := by
    intro hmem
    have : SessionManager.gc (some 10) 10 [gcSession] = [] := rfl
    rw [this] at hmem
    simp at hmem
  have h3 := h1 h2
  simp [gcSession] at h3

/-- C4, amended: with no timeout configured the sweep removes nothing; with
timeout T one sweep keeps a session exactly when now - lastUsedAt < T
(equivalently, removes it exactly when the idle time reaches or exceeds T,
not only when it strictly exceeds T); and a session touched within the
window is still found by getSession after the sweep. -/
theorem C4_gc_amended (t now : Int) (sessions : List Session) (s : Session) :
    (SessionManager.gc none now sessions = sessions) ∧
    (s ∈ SessionManager.gc (some t) now sessions ↔
      s ∈ sessions ∧ now - s.dateLastUsed < t) ∧
    (s ∈ sessions → now - s.dateLastUsed < t →
      (SessionManager.getSession (SessionManager.gc (some t) now sessions)
        (.jstr s.id)).isSome = true) := by
  refine ⟨rfl, ?_, ?_⟩
  · simp [SessionManager.gc, List.mem_filter]
  · intro hmem hlt
    have hs : s ∈ SessionManager.gc (some t) now sessions := by
      simp [SessionManager.gc, List.mem_filter, hmem, hlt]
    rw [SessionManager.getSession, List.find?_isSome]
    exact ⟨s, hs, by simp⟩

/-- Witness for C4 at concrete values: a session idle for 5 of 10 seconds
survives the sweep and is still returned by getSession. -/
theorem C4_gc_amended_witness :
    gcSession ∈ SessionManager.gc (some 10) 5 [gcSession] ∧
    (SessionManager.getSession (SessionManager.gc (some 10) 5 [gcSession])
      (.jstr gcSession.id)).isSome = true := by
  refine ⟨?_, ?_⟩
  · exact (C4_gc_amended 10 5 [gcSession] gcSession).2.1.mpr ⟨by simp, by norm_num [gcSession]⟩
  · exact (C4_gc_amended 10 5 [gcSession] gcSession).2.2 (by simp) (by norm_num [gcSession])

/-- C8: evaluation at the failing input.  When all sends succeed, push
delivers exactly one envelope to the subscribed connection A and none to
B (the claim's delivery pattern).  But when A's send fails, the awaited
send makes push reject before reaching B: the subscribed connection B
receives nothing, so delivery is not independent per connection — the code
contradicts the specification's requirement that one connection's send
failure must not block or abort delivery to the others. -/
theorem C8_push_abort_on_send_failure :
    (Session.push pushSessionOk "t" (.jstr "msg")
      = (.ok true, [("A", pushEnvelope "t" (.jstr "msg"))])) ∧
    (Session.push pushSessionFail "t" (.jstr "msg") = (.error "send failed", [])) :=
  ⟨rfl, rfl⟩

/-- C7: evaluation at the failing input.  Handling one failing request
mutates the dispatcher's shared returnString template (message "" becomes
"boom"), so error responses are not freshly constructed objects; and in a
batch of two requests that throw different strings, both responses are
serialized from the same shared template, so both report the second
member's message.  This matches the latent defect the specification calls
out: error responses are reused mutable template objects, not fresh
objects per call. -/
theorem C7_error_templates_mutated :
    ((Rpc.handle c7State 0
        (.jobj [("jsonrpc", .jstr "2.0"), ("id", .jnum 1), ("method", .jstr "boom")])).toOption.map
      (fun pr => pr.2.errors.returnString))
      = some [("code", .jnum (-32002)), ("message", .jstr "boom")] ∧
    initErrors.returnString = [("code", .jnum (-32002)), ("message", .jstr "")] ∧
    ((batchItem (handleOutput c7BatchState 0
        (.jarr [.jobj [("jsonrpc", .jstr "2.0"), ("id", .jnum 1), ("method", .jstr "boomA")],
                .jobj [("jsonrpc", .jstr "2.0"), ("id", .jnum 2), ("method", .jstr "boomB")]]))
        0).bind (fun o => outputErrField o "message")) = some (.jstr "bbb") ∧
    ((batchItem (handleOutput c7BatchState 0
        (.jarr [.jobj [("jsonrpc", .jstr "2.0"), ("id", .jnum 1), ("method", .jstr "boomA")],
                .jobj [("jsonrpc", .jstr "2.0"), ("id", .jnum 2), ("method", .jstr "boomB")]]))
        1).bind (fun o => outputErrField o "message")) = some (.jstr "bbb") :=
  ⟨rfl, rfl, rfl, rfl⟩

/-- C6, counterexample: the claim says null is accepted only against the
types none and null (and in particular rejected against any), but
checkParameters accepts every value, including null, against the type
any. -/
theorem C6_counterexample :
    ¬ (∀ c : Constraint, (∃ r, checkParameters .jnull c "/" = .ok (true, r)) →
        c.ctypeOf = some (.single "none") ∨ c.ctypeOf = some (.single "null")) := by
  intro h
  have := h (typeOnly "any")
    ⟨"Constraints specify to accept everything (/)", rfl⟩
  simp [typeOnly, freshTypeConstraint, Constraint.ctypeOf] at this

/-- C10, counterexample: the claim says that with a null session manager
handle never returns an AccessDenied (-32000) error, but a handler that
throws an Error whose message is "Access denied" is remapped by
Rpc._handle to the permission template, so handle does return code -32000
even though session resolution and the permission gate were skipped. -/
theorem C10_counterexample :
    ¬ (∀ (st : RpcState) (now : Int) (req : JValue), st.sessionManager = none →
        (handleOutput st now req).bind (fun o => outputErrField o "code")
          ≠ some (.jnum (-32000))) :=
  fun h => h c10State 0 c10Req rfl rfl

/-- C5, counterexample: batch members are not processed independently.  In
the batch [a, b] whose handlers throw the strings "alpha" and "beta", both
error responses are references to the shared returnString template, which
member b mutates after member a used it: at serialization member a's
error message is "beta", while processing a alone yields "alpha".  So one
member's failure does affect another's response, contradicting the
independence part of the claim. -/
theorem C5_counterexample :
    ((batchItem (handleOutput c5State 0 (.jarr [c5ReqA, c5ReqB])) 0).bind
      (fun o => outputErrField o "message")) = some (.jstr "beta") ∧
    ((handleOutput c5State 0 c5ReqA).bind
      (fun o => outputErrField o "message")) = some (.jstr "alpha") ∧
    (JValue.jstr "beta" : JValue) ≠ .jstr "alpha" := by
  refine ⟨rfl, rfl, ?_⟩
  intro h
  injection h with h'
  exact absurd h' (by decide)

/-- C3, counterexample: the claim says every response has exactly one of
result and error non-null, for every handler outcome including a handler
that returns null; but when the handler returns null the response of
Rpc._handle carries result null and error null simultaneously. -/
theorem C3_counterexample :
    ¬ (∀ (st : RpcState) (now : Int) (req : JValue) (resp : Response) (st' : RpcState),
        Rpc.handleOne st now req = .ok (resp, st') →
        (resp.error.isSome ∧ resp.result = .jnull) ∨
        (resp.error = none ∧ resp.result ≠ .jnull)) := by
  intro h
  rcases h c3State 0 c3Req
      { id := .jnum 1, result := .jnull, error := none } c3State rfl with
    ⟨h1, _⟩ | ⟨_, h2⟩
  · simp at h1
  · exact h2 rfl

/-- C1, counterexample: for the registered schema [array with a nested
object contains] and params [null], no alternative accepts the params
(the validator throws instead of returning), yet the response is not an
InvalidParams (-32602) error: the thrown validator Error is classified by
Rpc._handle as a HandlerError, code -32003.  So "on total validation
failure the response is InvalidParams with the last diagnostic" fails as
stated. -/
theorem C1_counterexample :
    (checkParameters (.jarr [.jnull]) c1BadConstraint "/"
      = .error "Expected constraints to contain a type (string)") ∧
    ((handleOutput c1State 0 c1Req).bind (fun o => outputErrField o "code")
      = some (.jnum (-32003))) ∧
    (JValue.jnum (-32003) : JValue) ≠ .jnum (-32602) := by
  refine ⟨rfl, rfl, ?_⟩
  intro h
  injection h with h'
  exact absurd h' (by decide)

/-- The session's checkPermission agrees with exact membership of the
combined permission set getPermissions, whenever the attached principal
(if any) exposes getPermissions exactly when it exposes checkPermission. -/
theorem checkPermission_iff_combined (s : Session) (m : String)
    (hcoh : ∀ u, s.user = some u → u.hasGetPermissions = u.hasCheckPermission) :
    Session.checkPermission s m = true ↔ m ∈ Session.getPermissions s := by
  unfold Session.checkPermission Session.getPermissions Principal.checkPermissionFn
  cases hu : s.user with
  | none => simp [List.contains]
  | some u =>
    have hg := hcoh u hu
    by_cases hmem : m ∈ s.permissions
    · simp [List.contains, hmem]
    · cases hgp : u.hasGetPermissions <;> cases hcp2 : u.hasCheckPermission
      · simp [List.contains, hmem, hgp, hcp2]
      · rw [hgp, hcp2] at hg; simp at hg
      · rw [hgp, hcp2] at hg; simp at hg
      · simp [List.contains, hmem, hgp, hcp2]

/-- Rpc._execute past the permission gate never throws the AccessDenied
template: the validation-and-invocation stage produces only InvalidParams
references or handler-classified failures. -/
theorem runChecked_ne_permission (st : RpcState) (entry : MethodEntry) (p : JValue)
    (sess : Option Session) :
    (Rpc.runChecked st entry p sess).1 ≠ .errRef .permission := by
  unfold Rpc.runChecked
  cases hps : entry.parameterSchema with
  | none => cases hh : entry.handler p sess <;> simp [hps, hh, outcomeToExec]
  | some schema =>
    cases hvp : validateParams p schema "" with
    | error e => simp [hps, hvp]
    | ok br =>
      cases br with
      | mk b r =>
        cases b
        · simp [hps, hvp]
        · cases hh : entry.handler p sess <;> simp [hps, hvp, hh, outcomeToExec]

/-- C2: for a private method and a token that resolves to a session, the
permission gate of Rpc._execute denies (AccessDenied) exactly when the
session's combined permission set (its own list plus the principal's
getPermissions when exposed) does not contain the exact method name; when
it does contain it, execution proceeds past the gate (the handler is
reached modulo parameter validation).  The principal is assumed coherent:
it exposes getPermissions exactly when it exposes checkPermission,
deciding membership of the same list. -/
theorem C2_permission_gate (st : RpcState) (now : Int) (m : String) (params : JValue)
    (sessions : List Session) (tkn : String) (s : Session) (entry : MethodEntry)
    (hsm : st.sessionManager = some sessions)
    (hfind : SessionManager.getSession sessions (.jstr tkn) = some s)
    (hm : lookupMethod st.methods m = some entry)
    (hpriv : entry.isPublic = false)
    (hcoh : ∀ u, s.user = some u → u.hasGetPermissions = u.hasCheckPermission) :
    ((Rpc.execute st now m params (.jstr tkn)).1 = .errRef .permission ↔
      m ∉ Session.getPermissions s) ∧
    (m ∈ Session.getPermissions s →
      (Rpc.execute st now m params (.jstr tkn)).1
        = (Rpc.runChecked
            { st with sessionManager := some (SessionManager.touchAll sessions s.id now) }
            entry params (some (Session.touch s now))).1) := by
  have hcp := checkPermission_iff_combined s m hcoh
  have htouch : Session.checkPermission (Session.touch s now) m
      = Session.checkPermission s m := rfl
  simp only [Rpc.execute, hsm, hm, hfind, JValue.isNull, Bool.false_eq_true, if_false,
    hpriv, Bool.false_or, htouch]
  by_cases hperm : m ∈ Session.getPermissions s
  · have hct : Session.checkPermission s m = true := hcp.mpr hperm
    simp [hct, hperm, runChecked_ne_permission]
  · have hcf : Session.checkPermission s m = false := by
      cases hval : Session.checkPermission s m
      · rfl
      · exact absurd (hcp.mp hval) hperm
    simp [hcf, hperm]

/-- Witness for C2: with the session holding permission "secret", calling
the private method "secret" with its token is not denied. -/
theorem C2_permission_gate_witness :
    (Rpc.execute c2wState 0 "secret" .jnull (.jstr "tok1")).1 ≠ .errRef .permission ∧
    "secret" ∈ Session.getPermissions c2wSession := by
  have h := C2_permission_gate c2wState 0 "secret" .jnull [c2wSession] "tok1" c2wSession
      c2wEntry rfl rfl rfl rfl (fun u hu => by simp [c2wSession] at hu)
  have hmem : "secret" ∈ Session.getPermissions c2wSession := by
    simp [Session.getPermissions, c2wSession]
  exact ⟨fun he => (h.1.mp he) hmem, hmem⟩

/-- The response produced by Rpc.handleOneBody never carries both a result
and an error: any failure leaves the result null; and a response without
an error comes from a valid envelope whose execution returned exactly the
response's result value. -/
theorem handleOneBody_envelope (st : RpcState) (now : Int) (req : JValue)
    (resp : Response) (st' : RpcState)
    (hb : Rpc.handleOneBody st now req = (resp, st')) :
    (resp.error.isSome = true → resp.result = .jnull) ∧
    (resp.error = none →
      validEnvelope req = true ∧
      (Rpc.execute st now (methodOf req) (paramsOf req) (tokenOf req)).1 = .ok resp.result) := by
  by_cases hv : validEnvelope req
  · cases hexe : Rpc.execute st now (methodOf req) (paramsOf req) (tokenOf req) with
    | mk res st₂ =>
      simp only [Rpc.handleOneBody, hv, Bool.not_true, Bool.false_eq_true, if_false, hexe] at hb
      cases res with
      | ok v =>
        simp only [Prod.mk.injEq] at hb
        rw [← hb.1]
        exact ⟨fun hc => by simp at hc, fun _ => ⟨hv, by simp [hexe]⟩⟩
      | errString s =>
        simp only [Prod.mk.injEq] at hb
        rw [← hb.1]
        exact ⟨fun _ => rfl, fun hc => by simp at hc⟩
      | errError msg =>
        simp only [Prod.mk.injEq] at hb
        rw [← hb.1]
        exact ⟨fun _ => rfl, fun hc => by simp at hc⟩
      | errRef k =>
        simp only [Prod.mk.injEq] at hb
        rw [← hb.1]
        exact ⟨fun _ => rfl, fun hc => by simp at hc⟩
      | errCustom fields =>
        simp only [Prod.mk.injEq] at hb
        rw [← hb.1]
        exact ⟨fun _ => rfl, fun hc => by simp at hc⟩
      | errOther =>
        simp only [Prod.mk.injEq] at hb
        rw [← hb.1]
        exact ⟨fun _ => rfl, fun hc => by simp at hc⟩
  · simp only [Rpc.handleOneBody, hv, Bool.not_false, if_true, Prod.mk.injEq] at hb
    rw [← hb.1]
    exact ⟨fun _ => rfl, fun hc => by simp at hc⟩

/-- C3, amended: for every request processed by Rpc._handle, a failure sets
the error and leaves the result null, and a response without an error is
exactly a valid envelope whose execution succeeded with the response's
result value — which may itself be null when the handler returned null, in
which case both fields are null (at most one of result/error is non-null
rather than exactly one). -/
theorem C3_envelope_amended (st : RpcState) (now : Int) (req : JValue)
    (resp : Response) (st' : RpcState)
    (h : Rpc.handleOne st now req = .ok (resp, st')) :
    (resp.error.isSome = true → resp.result = .jnull) ∧
    (resp.error = none →
      validEnvelope req = true ∧
      (Rpc.execute st now (methodOf req) (paramsOf req) (tokenOf req)).1 = .ok resp.result) := by
  have hb : Rpc.handleOneBody st now req = (resp, st') := by
    cases req with
    | jnull => exact Except.noConfusion h
    | jbool b => simp only [Rpc.handleOne, Except.ok.injEq] at h; exact h
    | jnum n => simp only [Rpc.handleOne, Except.ok.injEq] at h; exact h
    | jstr s => simp only [Rpc.handleOne, Except.ok.injEq] at h; exact h
    | jarr l => simp only [Rpc.handleOne, Except.ok.injEq] at h; exact h
    | jobj f => simp only [Rpc.handleOne, Except.ok.injEq] at h; exact h
  exact handleOneBody_envelope st now req resp st' hb

/-- Witness for C3 (amended): at the concrete dispatcher whose handler
returns null, the error-free response indeed comes from a valid envelope
and a successful execution returning null. -/
theorem C3_envelope_amended_witness :
    validEnvelope c3Req = true ∧
    (Rpc.execute c3State 0 (methodOf c3Req) (paramsOf c3Req) (tokenOf c3Req)).1
      = .ok .jnull :=
  (C3_envelope_amended c3State 0 c3Req
    { id := .jnum 1, result := .jnull, error := none } c3State rfl).2 rfl

/-- Object.assign of a single field makes that field readable back. -/
theorem lookupField_setField_self (t : List (String × JValue)) (k : String) (v : JValue) :
    lookupField (setField t k v) k = some v := by
  induction t with
  | nil => simp [setField, lookupField]
  | cons kv rest ih =>
    cases kv with
    | mk k' v' =>
      cases hk : (k' == k)
      · simpa [setField, lookupField, hk] using ih
      · simp [setField, lookupField, hk]

/-- A public method called with a null token passes the gate with no
session, whether or not a session manager is configured. -/
theorem execute_public_no_token (st : RpcState) (now : Int) (m : String) (p : JValue)
    (entry : MethodEntry) (hm : lookupMethod st.methods m = some entry)
    (hpub : entry.isPublic = true) :
    Rpc.execute st now m p .jnull = Rpc.runChecked st entry p none := by
  cases hsm : st.sessionManager <;> simp [Rpc.execute, hm, hsm, hpub, JValue.isNull]

/-- The validation loop on alternatives that all reject: the result is a
rejection carrying the reason of the last-tried alternative (the reason
accumulator when there is none). -/
theorem validateParams_all_false (p : JValue) :
    ∀ (alts : List Constraint) (racc : String),
      (∀ c ∈ alts, ∃ r, checkParameters p c "/" = .ok (false, r)) →
      ∃ rl, validateParams p alts racc = .ok (false, rl) ∧
        (alts = [] → rl = racc) ∧
        (∀ clast, alts.getLast? = some clast →
          checkParameters p clast "/" = .ok (false, rl)) := by
  intro alts
  induction alts with
  | nil =>
    intro racc _
    exact ⟨racc, rfl, fun _ => rfl, fun clast hl => by simp at hl⟩
  | cons c rest ih =>
    intro racc hall
    obtain ⟨r, hcr⟩ := hall c (by simp)
    have hall' : ∀ c' ∈ rest, ∃ r', checkParameters p c' "/" = .ok (false, r') :=
      fun c' hc' => hall c' (by simp [hc'])
    obtain ⟨rl, h1, h2, h3⟩ := ih r hall'
    refine ⟨rl, ?_, by simp, ?_⟩
    · simp [validateParams, hcr, h1]
    · intro clast hl
      cases hrest : rest with
      | nil =>
        subst hrest
        simp only [List.getLast?_singleton, Option.some.injEq] at hl
        subst hl
        rw [h2 rfl]
        exact hcr
      | cons c2 rest2 =>
        subst hrest
        rw [List.getLast?_cons_cons] at hl
        exact h3 clast hl

/-- The validation loop accepts as soon as some alternative accepts,
provided no alternative throws. -/
theorem validateParams_accepted (p : JValue) :
    ∀ (alts : List Constraint) (racc : String),
      (∀ c ∈ alts, ∃ br, checkParameters p c "/" = .ok br) →
      (∃ c ∈ alts, ∃ r, checkParameters p c "/" = .ok (true, r)) →
      ∃ r, validateParams p alts racc = .ok (true, r) := by
  intro alts
  induction alts with
  | nil =>
    intro racc _ hacc
    simp at hacc
  | cons c rest ih =>
    intro racc hall hacc
    obtain ⟨⟨b, r0⟩, hc⟩ := hall c (by simp)
    cases b
    · obtain ⟨c', hc', r', hcr'⟩ := hacc
      rcases List.mem_cons.mp hc' with rfl | hmem
      · rw [hc] at hcr'
        simp at hcr'
      · have hall' : ∀ c'' ∈ rest, ∃ br, checkParameters p c'' "/" = .ok br :=
          fun c'' hc'' => hall c'' (by simp [hc''])
        obtain ⟨r2, h2⟩ := ih r0 hall' ⟨c', hmem, r', hcr'⟩
        exact ⟨r2, by simp [validateParams, hc, h2]⟩
    · exact ⟨r0, by simp [validateParams, hc]⟩

/-- C1, amended: for a registered method whose schema is the alternative
list alts, with the gate passed (public method, no token) and under the
provisos that the handler succeeds on P and the validator returns normally
on every alternative, execution succeeds exactly when some alternative
accepts P; and on total rejection the result is the InvalidParams template
reference whose reason field carries the diagnostic of the last-tried
alternative.  (When the validator throws instead, the response becomes a
HandlerError -32003; see the counterexample.) -/
theorem C1_validation_amended (st : RpcState) (now : Int) (m : String) (p v : JValue)
    (entry : MethodEntry) (alts : List Constraint)
    (hm : lookupMethod st.methods m = some entry)
    (hpub : entry.isPublic = true)
    (hschema : entry.parameterSchema = some alts)
    (hok : ∀ c ∈ alts, ∃ br, checkParameters p c "/" = .ok br)
    (hv : entry.handler p none = .ok v) :
    ((∃ c ∈ alts, ∃ r, checkParameters p c "/" = .ok (true, r)) →
      (Rpc.execute st now m p .jnull).1 = .ok v) ∧
    ((∀ c ∈ alts, ∃ r, checkParameters p c "/" = .ok (false, r)) →
      (Rpc.execute st now m p .jnull).1 = .errRef .parameters ∧
      (∀ clast rl, alts.getLast? = some clast →
        checkParameters p clast "/" = .ok (false, rl) →
        lookupField (errGet (Rpc.execute st now m p .jnull).2.errors .parameters) "reason"
          = some (.jstr rl))) ∧
    ((Rpc.execute st now m p .jnull).1 = .ok v ↔
      ∃ c ∈ alts, ∃ r, checkParameters p c "/" = .ok (true, r)) := by
  have hex := execute_public_no_token st now m p entry hm hpub
  have hacceptCase : (∃ c ∈ alts, ∃ r, checkParameters p c "/" = .ok (true, r)) →
      (Rpc.execute st now m p .jnull).1 = .ok v := by
    intro hacc
    obtain ⟨r, hr⟩ := validateParams_accepted p alts "" hok hacc
    rw [hex]
    simp [Rpc.runChecked, hschema, hr, hv, outcomeToExec]
  have hrejectCase : (∀ c ∈ alts, ∃ r, checkParameters p c "/" = .ok (false, r)) →
      (Rpc.execute st now m p .jnull).1 = .errRef .parameters ∧
      (∀ clast rl, alts.getLast? = some clast →
        checkParameters p clast "/" = .ok (false, rl) →
        lookupField (errGet (Rpc.execute st now m p .jnull).2.errors .parameters) "reason"
          = some (.jstr rl)) := by
    intro hall
    obtain ⟨rl, h1, _, h3⟩ := validateParams_all_false p alts "" hall
    constructor
    · rw [hex]
      simp [Rpc.runChecked, hschema, h1]
    · intro clast rl' hlast hclast
      have hrl := h3 clast hlast
      rw [hclast] at hrl
      injection hrl with hpair
      injection hpair with hb hr
      subst hr
      rw [hex]
      simp only [Rpc.runChecked, hschema, h1]
      exact lookupField_setField_self _ _ _
  refine ⟨hacceptCase, hrejectCase, ?_, ?_⟩
  · intro hokv
    by_cases hacc : ∃ c ∈ alts, ∃ r, checkParameters p c "/" = .ok (true, r)
    · exact hacc
    · exfalso
      have hall : ∀ c ∈ alts, ∃ r, checkParameters p c "/" = .ok (false, r) := by
        intro c hc
        obtain ⟨⟨b, r⟩, hbr⟩ := hok c hc
        cases b
        · exact ⟨r, hbr⟩
        · exact absurd ⟨c, hc, r, hbr⟩ hacc
      have := (hrejectCase hall).1
      rw [hokv] at this
      simp at this
  · exact hacceptCase

/-- Witness for C1 (amended): the accepted string parameter makes execution
succeed with the echoed value. -/
theorem C1_validation_amended_witness :
    (Rpc.execute c1wState 0 "wecho" (.jstr "hi") .jnull).1 = .ok (.jstr "hi") := by
  refine (C1_validation_amended c1wState 0 "wecho" (.jstr "hi") (.jstr "hi")
      { handler := fun q _ => .ok q, parameterSchema := some [typeOnly "string"],
        isPublic := true }
      [typeOnly "string"] rfl rfl rfl ?_ rfl).1 ?_
  · intro c hc
    simp only [List.mem_singleton] at hc
    subst hc
    exact ⟨(true, "Constraints specify to accept a string (/)"), rfl⟩
  · exact ⟨typeOnly "string", by simp,
      "Constraints specify to accept a string (/)", rfl⟩

/-- The element loop of checkArray only throws messages of its recursive
checker. -/
theorem arrLoopGo_error_ne
    (rec : JValue → Constraint → String → Except String (Bool × String))
    (hrec : ∀ v c s e, rec v c s = .error e → e ≠ "Access denied") :
    ∀ (tc : Constraint) (l : List JValue) (i : Nat) (path e : String),
      arrLoopGo rec tc l i path = .error e → e ≠ "Access denied" := by
  intro tc l
  induction l with
  | nil => intro i path e h; simp [arrLoopGo] at h
  | cons v rest ih =>
    intro i path e h
    simp only [arrLoopGo] at h
    cases hr : rec v tc ("[" ++ toString i ++ "]" ++ path) with
    | error e' =>
      rw [hr] at h
      injection h with he
      subst he
      exact hrec _ _ _ _ hr
    | ok br =>
      rw [hr] at h
      cases br with
      | mk b r =>
        cases b
        · simp at h
        · exact ih (i + 1) path e h

/-- checkArray only throws messages of its recursive checker. -/
theorem checkArrayGo_error_ne
    (rec : JValue → Constraint → String → Except String (Bool × String))
    (hrec : ∀ v c s e, rec v c s = .error e → e ≠ "Access denied")
    (elems : List JValue) (c : Constraint) (path e : String) :
    checkArrayGo rec elems c path = .error e → e ≠ "Access denied" := by
  intro h
  simp only [checkArrayGo] at h
  cases hlen : arrayLenCheck c elems.length path with
  | some res => rw [hlen] at h; simp at h
  | none =>
    rw [hlen] at h
    cases hco : c.containsOf with
    | none => rw [hco] at h; simp at h
    | some ct =>
      rw [hco] at h
      cases ct with
      | ctype s =>
        simp only [arrLoopFinish] at h
        cases hal : arrLoopGo rec (freshTypeConstraint (.single s)) elems 0 path with
        | error e' =>
          rw [hal] at h
          injection h with he
          subst he
          exact arrLoopGo_error_ne rec hrec _ _ _ _ _ hal
        | ok o => rw [hal] at h; cases o <;> simp at h
      | calts l =>
        simp only [arrLoopFinish] at h
        cases hal : arrLoopGo rec (freshTypeConstraint (.alts l)) elems 0 path with
        | error e' =>
          rw [hal] at h
          injection h with he
          subst he
          exact arrLoopGo_error_ne rec hrec _ _ _ _ _ hal
        | ok o => rw [hal] at h; cases o <;> simp at h
      | cmap m =>
        simp only [arrLoopFinish] at h
        cases hal : arrLoopGo rec (freshTypeConstraint .cobj) elems 0 path with
        | error e' =>
          rw [hal] at h
          injection h with he
          subst he
          exact arrLoopGo_error_ne rec hrec _ _ _ _ _ hal
        | ok o => rw [hal] at h; cases o <;> simp at h

/-- The required loop of checkObject throws only a TypeError of its own or
messages of its recursive checker. -/
theorem requiredLoopGo_error_ne
    (rec : JValue → Constraint → String → Except String (Bool × String))
    (hrec : ∀ v c s e, rec v c s = .error e → e ≠ "Access denied") :
    ∀ (entries : List (String × Option Constraint))
      (paramsOpt : Option (List (String × JValue))) (path e : String),
      requiredLoopGo rec paramsOpt entries path = .error e → e ≠ "Access denied" := by
  intro entries
  induction entries with
  | nil => intro paramsOpt path e h; simp [requiredLoopGo] at h
  | cons kv rest ih =>
    intro paramsOpt path e h
    cases kv with
    | mk key subc =>
      simp only [requiredLoopGo] at h
      split at h
      · injection h with he
        subst he
        decide
      · rename_i fields
        split at h
        · simp at h
        · split at h
          · exact ih (some fields) path e h
          · split at h
            · rename_i hr
              injection h with he
              subst he
              exact hrec _ _ _ _ hr
            · simp at h
            · exact ih (some fields) path e h

/-- The stray-parameter loop of checkObject throws only messages of its
recursive checker. -/
theorem strayLoopGo_error_ne
    (rec : JValue → Constraint → String → Except String (Bool × String))
    (hrec : ∀ v c s e, rec v c s = .error e → e ≠ "Access denied") :
    ∀ (fields : List (String × JValue)) (reqEff : Option (Required Constraint))
      (opt : Option (List (String × Constraint))) (path e : String),
      strayLoopGo rec reqEff opt fields path = .error e → e ≠ "Access denied" := by
  intro fields
  induction fields with
  | nil => intro reqEff opt path e h; simp [strayLoopGo] at h
  | cons kv rest ih =>
    intro reqEff opt path e h
    cases kv with
    | mk key v =>
      simp only [strayLoopGo] at h
      split at h
      · exact ih reqEff opt path e h
      · split at h
        · exact ih reqEff opt path e h
        · split at h
          · split at h
            · split at h
              · split at h
                · rename_i hr
                  injection h with he
                  subst he
                  exact hrec _ _ _ _ hr
                · simp at h
                · exact ih _ _ _ _ h
              · exact ih _ _ _ _ h
            · simp at h
          · simp at h

/-- checkObject throws only a TypeError or messages of its recursive
checker. -/
theorem checkObjectGo_error_ne
    (rec : JValue → Constraint → String → Except String (Bool × String))
    (hrec : ∀ v c s e, rec v c s = .error e → e ≠ "Access denied")
    (paramsOpt : Option (List (String × JValue))) (c : Constraint) (path e : String) :
    checkObjectGo rec paramsOpt c path = .error e → e ≠ "Access denied" := by
  intro h
  simp only [checkObjectGo] at h
  split at h
  · simp at h
  · cases hreq : (match effectiveRequired c with
                  | some r => requiredLoopGo rec paramsOpt (requiredEntries r) path
                  | none => .ok none) with
    | error e' =>
      rw [hreq] at h
      injection h with he
      subst he
      cases her : effectiveRequired c with
      | none => rw [her] at hreq; simp at hreq
      | some r =>
        rw [her] at hreq
        exact requiredLoopGo_error_ne rec hrec _ _ _ _ hreq
    | ok o =>
      rw [hreq] at h
      cases o with
      | some res => simp at h
      | none =>
        cases hst : strayLoopGo rec (effectiveRequired c) c.optionalOf (paramsOpt.getD []) path with
        | error e' =>
          rw [hst] at h
          injection h with he
          subst he
          exact strayLoopGo_error_ne rec hrec _ _ _ _ _ hst
        | ok o2 => rw [hst] at h; cases o2 <;> simp at h

/-- The type-alternatives loop throws only messages of its recursive
checker. -/
theorem altsLoopGo_error_ne
    (rec : JValue → Constraint → String → Except String (Bool × String))
    (hrec : ∀ v c s e, rec v c s = .error e → e ≠ "Access denied") :
    ∀ (params : JValue) (l : List String) (i : Nat) (path e : String),
      altsLoopGo rec params l i path = some (.error e) → e ≠ "Access denied" := by
  intro params l
  induction l with
  | nil => intro i path e h; simp [altsLoopGo] at h
  | cons t rest ih =>
    intro i path e h
    simp only [altsLoopGo] at h
    cases hr : rec params (freshTypeConstraint (.single t)) ("<" ++ toString i ++ ">" ++ path) with
    | error e' =>
      rw [hr] at h
      injection h with he
      injection he with he2
      subst he2
      exact hrec _ _ _ _ hr
    | ok br =>
      rw [hr] at h
      cases br with
      | mk b r =>
        cases b
        · exact ih (i + 1) path e h
        · simp at h

/-- No error the validator throws carries the message "Access denied": its
throw messages are the fuel marker, the non-string-type complaint, and the
TypeError, none of which is the remapped permission message. -/
theorem cpFuel_error_ne :
    ∀ (fuel : Nat) (p : JValue) (c : Constraint) (path e : String),
      cpFuel fuel p c path = .error e → e ≠ "Access denied" := by
  intro fuel
  induction fuel with
  | zero =>
    intro p c path e h
    injection h with he
    subst he
    decide
  | succ f ih =>
    intro p c path e h
    have hrec : ∀ v c' s e', cpFuel f v c' s = .error e' → e' ≠ "Access denied" :=
      fun v c' s e' h' => ih v c' s e' h'
    simp only [cpFuel] at h
    split at h
    · split at h
      · rename_i res hal
        rw [h] at hal
        exact altsLoopGo_error_ne (cpFuel f) hrec p _ 0 path _ hal
      · simp at h
    · simp at h
    · injection h with he
      subst he
      decide
    · split at h
      · simp at h
      · split at h
        · simp at h
        · split at h
          · split at h
            · exact checkArrayGo_error_ne (cpFuel f) hrec _ c path _ h
            · simp at h
          · split at h
            · split at h
              · simp at h
              · exact checkObjectGo_error_ne (cpFuel f) hrec (some _) c path _ h
              · exact checkObjectGo_error_ne (cpFuel f) hrec none c path _ h
              · simp at h
            · simp at h

/-- checkParameters never throws the message "Access denied". -/
theorem checkParameters_error_ne (p : JValue) (c : Constraint) (path e : String) :
    checkParameters p c path = .error e → e ≠ "Access denied" :=
  fun h => cpFuel_error_ne _ _ _ _ _ h

/-- The validation loop of Rpc._execute never throws the message
"Access denied". -/
theorem validateParams_error_ne (p : JValue) :
    ∀ (alts : List Constraint) (racc e : String),
      validateParams p alts racc = .error e → e ≠ "Access denied" := by
  intro alts
  induction alts with
  | nil => intro racc e h; simp [validateParams] at h
  | cons c rest ih =>
    intro racc e h
    simp only [validateParams] at h
    cases hc : checkParameters p c "/" with
    | error e' =>
      rw [hc] at h
      injection h with he
      subst he
      exact checkParameters_error_ne p c "/" _ hc
    | ok br =>
      rw [hc] at h
      cases br with
      | mk b r =>
        cases b
        · exact ih r e h
        · simp at h

/-- A successful Rpc.handleOne call is exactly Rpc.handleOneBody on a
non-null request. -/
theorem handleOne_ok (st : RpcState) (now : Int) (req : JValue) (resp : Response)
    (st' : RpcState) (h : Rpc.handleOne st now req = .ok (resp, st')) :
    Rpc.handleOneBody st now req = (resp, st') := by
  cases req with
  | jnull => exact Except.noConfusion h
  | jbool b => simp only [Rpc.handleOne, Except.ok.injEq] at h; exact h
  | jnum n => simp only [Rpc.handleOne, Except.ok.injEq] at h; exact h
  | jstr s => simp only [Rpc.handleOne, Except.ok.injEq] at h; exact h
  | jarr l => simp only [Rpc.handleOne, Except.ok.injEq] at h; exact h
  | jobj f => simp only [Rpc.handleOne, Except.ok.injEq] at h; exact h

/-- String BEq evaluates to false on distinct strings. -/
theorem sbeq_false_of_ne (a b : String) (h : ¬ a = b) : (a == b) = false := by
  cases hb : a == b
  · rfl
  · exact absurd (by simpa using hb) h

/-- Reading back a key after one Object.assign step: the assigned value for
that key, the old binding otherwise. -/
theorem lookupField_setField (t : List (String × JValue)) (k' : String) (v' : JValue)
    (k : String) :
    lookupField (setField t k' v') k = if k' = k then some v' else lookupField t k := by
  induction t with
  | nil =>
    by_cases hk : k' = k
    · simp [setField, lookupField, List.find?, hk]
    · simp [setField, lookupField, List.find?, hk, sbeq_false_of_ne k' k hk]
  | cons kv rest ih =>
    cases kv with
    | mk a b =>
      by_cases ha : a = k'
      · subst ha
        by_cases hk : a = k
        · simp [setField, lookupField, List.find?, hk]
        · simp [setField, lookupField, List.find?, hk, sbeq_false_of_ne a k hk]
      · have hstep : setField ((a, b) :: rest) k' v' = (a, b) :: setField rest k' v' := by
          simp [setField, sbeq_false_of_ne a k' ha]
        rw [hstep]
        by_cases hk2 : a = k
        · subst hk2
          have hk : ¬ k' = a := fun he => ha he.symm
          simp [lookupField, List.find?, hk]
        · simp only [lookupField] at ih ⊢
          simp [List.find?, sbeq_false_of_ne a k hk2, ih]

/-- A key read back from an Object.assign merge comes from the source (any
of its bindings) or from the untouched part of the target. -/
theorem lookupField_objAssign (src : List (String × JValue)) :
    ∀ (t : List (String × JValue)) (k : String) (v : JValue),
      lookupField (objAssign t src) k = some v →
      (k, v) ∈ src ∨ lookupField t k = some v := by
  induction src with
  | nil => intro t k v h; exact Or.inr h
  | cons kv rest ih =>
    intro t k v h
    cases kv with
    | mk a b =>
      have h' : lookupField (objAssign (setField t a b) rest) k = some v := h
      rcases ih (setField t a b) k v h' with hmem | hlk
      · exact Or.inl (List.mem_cons_of_mem _ hmem)
      · rw [lookupField_setField] at hlk
        by_cases hak : a = k
        · rw [if_pos hak] at hlk
          injection hlk with hv
          subst hv
          subst hak
          exact Or.inl (List.mem_cons_self _ _)
        · rw [if_neg hak] at hlk
          exact Or.inr hlk

/-- The outcomes of the validation-and-invocation stage: the handler's
classified outcome with the state untouched, a validator throw (never with
the remapped permission message), or the InvalidParams template reference
with the mutated parameters template. -/
theorem runChecked_shape (st : RpcState) (entry : MethodEntry) (p : JValue)
    (sess : Option Session) :
    (Rpc.runChecked st entry p sess = (outcomeToExec (entry.handler p sess), st)) ∨
    (∃ e, Rpc.runChecked st entry p sess = (.errError e, st) ∧ e ≠ "Access denied") ∨
    (∃ reason, Rpc.runChecked st entry p sess
      = (.errRef .parameters,
         { st with errors := (errSet st.errors .parameters
             (objAssign (errGet st.errors .parameters) [("reason", .jstr reason)])) })) := by
  cases hps : entry.parameterSchema with
  | none => exact Or.inl (by simp [Rpc.runChecked, hps])
  | some schema =>
    cases hvp : validateParams p schema "" with
    | error e =>
      exact Or.inr (Or.inl ⟨e, by simp [Rpc.runChecked, hps, hvp],
        validateParams_error_ne p schema "" e hvp⟩)
    | ok br =>
      cases br with
      | mk b r =>
        cases b
        · exact Or.inr (Or.inr ⟨r, by simp [Rpc.runChecked, hps, hvp]⟩)
        · exact Or.inl (by simp [Rpc.runChecked, hps, hvp])

/-- With no session manager, the method registry alone decides execution:
either method-not-found, or the validation-and-invocation stage with a
null session. -/
theorem execute_none_shape (st : RpcState) (now : Int) (m : String) (p tok : JValue)
    (hsm : st.sessionManager = none) :
    (Rpc.execute st now m p tok = (.errRef .method, st) ∧ lookupMethod st.methods m = none) ∨
    (∃ entry, lookupMethod st.methods m = some entry ∧
      Rpc.execute st now m p tok = Rpc.runChecked st entry p none) := by
  cases hm : lookupMethod st.methods m with
  | none => exact Or.inl ⟨by simp [Rpc.execute, hm], rfl⟩
  | some entry => exact Or.inr ⟨entry, rfl, by simp [Rpc.execute, hm, hsm]⟩

/-- C10, amended: with a null session manager, session resolution and the
permission gate are skipped: Rpc._execute ignores the token entirely (so a
non-public method runs with no token or an arbitrary token), and for every
request the dispatcher itself never produces an error object whose code is
AccessDenied (-32000) or InvalidToken (-32001) — provided no registered
handler fails in a way classified to those codes (an Error with message
"Access denied", or a thrown object with such a code field). -/
theorem C10_no_gate_amended (st : RpcState) (now : Int)
    (hsm : st.sessionManager = none)
    (herr : st.errors = initErrors)
    (hben : ∀ name e, lookupMethod st.methods name = some e →
      ∀ p s, HandlerBenign (e.handler p s)) :
    (∀ (m : String) (p tok : JValue),
      Rpc.execute st now m p tok = Rpc.execute st now m p .jnull) ∧
    (∀ (req : JValue) (resp : Response) (st' : RpcState),
      Rpc.handleOne st now req = .ok (resp, st') →
      ∀ k, resp.error = some k →
        lookupField (errGet st'.errors k) "code" ≠ some (.jnum (-32000)) ∧
        lookupField (errGet st'.errors k) "code" ≠ some (.jnum (-32001))) := by
  constructor
  · intro m p tok
    cases hm : lookupMethod st.methods m <;> simp [Rpc.execute, hm, hsm]
  · intro req resp st' h k hk
    have hb := handleOne_ok st now req resp st' h
    by_cases hv : validEnvelope req
    · rcases execute_none_shape st now (methodOf req) (paramsOf req) (tokenOf req) hsm with
        ⟨hex, _⟩ | ⟨entry, hm, hex⟩
      · simp only [Rpc.handleOneBody, hv, Bool.not_true, Bool.false_eq_true, if_false, hex,
          Prod.mk.injEq] at hb
        obtain ⟨hresp, hst⟩ := hb
        subst hresp
        subst hst
        simp only [Option.some.injEq] at hk
        subst hk
        constructor <;>
          simp [herr, errGet, errSet, objAssign, setField, lookupField, initErrors, List.find?]
      · rcases runChecked_shape st entry (paramsOf req) none with hrc | ⟨e, hrc, hne⟩ | ⟨reason, hrc⟩
        · rw [hrc] at hex
          cases ho : entry.handler (paramsOf req) none
          · rw [ho] at hex
            simp only [Rpc.handleOneBody, hv, Bool.not_true, Bool.false_eq_true, if_false, hex,
              outcomeToExec, Prod.mk.injEq] at hb
            obtain ⟨hresp, _⟩ := hb
            subst hresp
            simp at hk
          · rw [ho] at hex
            simp only [Rpc.handleOneBody, hv, Bool.not_true, Bool.false_eq_true, if_false, hex,
              outcomeToExec, Prod.mk.injEq] at hb
            obtain ⟨hresp, hst⟩ := hb
            subst hresp
            subst hst
            simp only [Option.some.injEq] at hk
            subst hk
            constructor <;>
              simp [herr, errGet, errSet, objAssign, setField, lookupField, initErrors, List.find?]
          · have hbe := hben _ _ hm (paramsOf req) none
            rw [ho] at hbe
            rw [ho] at hex
            simp only [Rpc.handleOneBody, hv, Bool.not_true, Bool.false_eq_true, if_false, hex,
              outcomeToExec] at hb
            rw [if_neg hbe] at hb
            simp only [Prod.mk.injEq] at hb
            obtain ⟨hresp, hst⟩ := hb
            subst hresp
            subst hst
            simp only [Option.some.injEq] at hk
            subst hk
            constructor <;>
              simp [herr, errGet, errSet, objAssign, setField, lookupField, initErrors, List.find?]
          · have hbe := hben _ _ hm (paramsOf req) none
            rw [ho] at hbe
            rw [ho] at hex
            simp only [Rpc.handleOneBody, hv, Bool.not_true, Bool.false_eq_true, if_false, hex,
              outcomeToExec, Prod.mk.injEq] at hb
            obtain ⟨hresp, hst⟩ := hb
            subst hresp
            subst hst
            simp only [Option.some.injEq] at hk
            subst hk
            constructor
            · intro hcode
              simp only [errGet] at hcode
              rcases lookupField_objAssign _ _ _ _ hcode with hmem | hbase
              · exact (hbe _ hmem).1 rfl
              · rw [herr] at hbase
                simp [errGet, initErrors, lookupField, List.find?] at hbase
            · intro hcode
              simp only [errGet] at hcode
              rcases lookupField_objAssign _ _ _ _ hcode with hmem | hbase
              · exact (hbe _ hmem).2 rfl
              · rw [herr] at hbase
                simp [errGet, initErrors, lookupField, List.find?] at hbase
          · rw [ho] at hex
            simp only [Rpc.handleOneBody, hv, Bool.not_true, Bool.false_eq_true, if_false, hex,
              outcomeToExec, Prod.mk.injEq] at hb
            obtain ⟨hresp, hst⟩ := hb
            subst hresp
            subst hst
            simp only [Option.some.injEq] at hk
            subst hk
            constructor <;> simp [herr, errGet, initErrors, lookupField, List.find?]
        · rw [hrc] at hex
          simp only [Rpc.handleOneBody, hv, Bool.not_true, Bool.false_eq_true, if_false, hex] at hb
          rw [if_neg hne] at hb
          simp only [Prod.mk.injEq] at hb
          obtain ⟨hresp, hst⟩ := hb
          subst hresp
          subst hst
          simp only [Option.some.injEq] at hk
          subst hk
          constructor <;>
            simp [herr, errGet, errSet, objAssign, setField, lookupField, initErrors, List.find?]
        · rw [hrc] at hex
          simp only [Rpc.handleOneBody, hv, Bool.not_true, Bool.false_eq_true, if_false, hex,
            Prod.mk.injEq] at hb
          obtain ⟨hresp, hst⟩ := hb
          subst hresp
          subst hst
          simp only [Option.some.injEq] at hk
          subst hk
          constructor <;>
            simp [herr, errGet, errSet, objAssign, setField, lookupField, initErrors, List.find?]
    · simp only [Rpc.handleOneBody, hv, Bool.not_false, if_true, Prod.mk.injEq] at hb
      obtain ⟨hresp, hst⟩ := hb
      subst hresp
      subst hst
      simp only [Option.some.injEq] at hk
      subst hk
      constructor <;> simp [herr, errGet, initErrors, lookupField, List.find?]

theorem C10_no_gate_amended_witness :
    Rpc.execute c10wState 0 "p10" .jnull (.jstr "garbage")
      = Rpc.execute c10wState 0 "p10" .jnull .jnull :=
  (C10_no_gate_amended c10wState 0 rfl rfl
    (by
      intro name e hlk p s
      simp only [c10wState, lookupMethod, List.find?] at hlk
      split at hlk
      · injection hlk with he
        subst he
        exact trivial
      · exact Option.noConfusion hlk)).1 "p10" .jnull (.jstr "garbage")

/-- checkParameters on a null value against a fresh single-type constraint
returns normally, accepting exactly the four null-admitting type names. -/
theorem cpFuel_null_fresh (fuel : Nat) (t : String) (path : String) :
    ∃ r, cpFuel (fuel + 1) .jnull (freshTypeConstraint (.single t)) path
      = .ok (nullTypeNameAccepts t, r) := by
  by_cases h1 : t = "any"
  · subst h1; exact ⟨_, rfl⟩
  · by_cases h2 : t = "none"
    · subst h2; exact ⟨_, rfl⟩
    · by_cases h3 : t = "null"
      · subst h3; exact ⟨_, rfl⟩
      · by_cases h4 : t = "array"
        · subst h4; exact ⟨_, rfl⟩
        · by_cases h5 : t = "object"
          · subst h5; exact ⟨_, rfl⟩
          · refine ⟨"Constraints specify to accept a " ++ t ++ " (" ++ path ++ ")", ?_⟩
            simp [cpFuel, freshTypeConstraint, Constraint.ctypeOf, h1, h2, h3, h4, h5,
              typeofStr, nullTypeNameAccepts, sbeq_false_of_ne t "any" h1,
              sbeq_false_of_ne t "none" h2, sbeq_false_of_ne t "null" h3,
              sbeq_false_of_ne t "object" h5,
              sbeq_false_of_ne "object" t (fun he => h5 he.symm)]

/-- The alternative-types loop on a null value: it yields an accepting
result exactly when some alternative is a null-admitting type name, and
never throws. -/
theorem altsLoopGo_null (fuel : Nat) (l : List String) :
    ∀ (i : Nat) (path : String),
      ((∃ r, altsLoopGo (cpFuel (fuel + 1)) .jnull l i path = some (.ok (true, r)))
        ∧ l.any nullTypeNameAccepts = true)
      ∨ (altsLoopGo (cpFuel (fuel + 1)) .jnull l i path = none
          ∧ l.any nullTypeNameAccepts = false) := by
  induction l with
  | nil => intro i path; exact Or.inr ⟨rfl, rfl⟩
  | cons t rest ih =>
    intro i path
    obtain ⟨r, hr⟩ := cpFuel_null_fresh fuel t ("<" ++ toString i ++ ">" ++ path)
    cases ht : nullTypeNameAccepts t
    · rw [ht] at hr
      rcases ih (i + 1) path with ⟨⟨r2, hr2⟩, hany⟩ | ⟨hnone, hany⟩
      · exact Or.inl ⟨⟨r2, by simp [altsLoopGo, hr, hr2]⟩, by simp [List.any_cons, ht, hany]⟩
      · exact Or.inr ⟨by simp [altsLoopGo, hr, hnone], by simp [List.any_cons, ht, hany]⟩
    · rw [ht] at hr
      exact Or.inl ⟨⟨r, by simp [altsLoopGo, hr]⟩, by simp [List.any_cons, ht]⟩

/-- checkObject on a null parameters value: it accepts when there is no
required entry to iterate (for-in over null is empty, so the stray loop is
vacuous), and throws a TypeError on the first required entry otherwise. -/
theorem checkObjectGo_null
    (rec : JValue → Constraint → String → Except String (Bool × String))
    (c : Constraint) (path : String) :
    (reqEntriesNonempty c = false →
      ∃ r, checkObjectGo rec none c path = .ok (true, r)) ∧
    (reqEntriesNonempty c = true →
      ∃ e, checkObjectGo rec none c path = .error e) := by
  cases hre : effectiveRequired c with
  | none =>
    constructor
    · intro _
      cases hopt : c.optionalOf with
      | none =>
        exact ⟨"Object has no further constraints (" ++ path ++ ")",
          by simp [checkObjectGo, hre, hopt]⟩
      | some o =>
        exact ⟨"Object matches the constraints (" ++ path ++ ")",
          by simp [checkObjectGo, hre, hopt, strayLoopGo]⟩
    · intro h
      simp [reqEntriesNonempty, hre] at h
  | some r =>
    cases hent : requiredEntries r with
    | nil =>
      constructor
      · intro _
        exact ⟨"Object matches the constraints (" ++ path ++ ")",
          by simp [checkObjectGo, hre, hent, requiredLoopGo, strayLoopGo]⟩
      · intro h
        simp [reqEntriesNonempty, hre, hent] at h
    | cons kv rest =>
      constructor
      · intro h
        simp [reqEntriesNonempty, hre, hent] at h
      · intro _
        obtain ⟨key, subc⟩ := kv
        exact ⟨"TypeError: Cannot read properties of null",
          by simp [checkObjectGo, hre, hent, requiredLoopGo]⟩

/-- Unfolding of checkParameters for an alternative-types constraint,
exposing the loop over alternatives at one fuel step less. -/
theorem cpFuel_alts_eq (fuel : Nat) (params : JValue) (l : List String)
    (a1 a2 a3 : Option Int) (co : Option (Contains Constraint))
    (re : Option (Required Constraint)) (op : Option (List (String × Constraint)))
    (path : String) :
    cpFuel (fuel + 1) params (.mk (some (.alts l)) a1 a2 a3 co re op) path
      = (match altsLoopGo (cpFuel fuel) params l 0 path with
         | some res => res
         | none => .ok (false, "Constraints specify to accept any of "
             ++ String.intercalate ", " l ++ " (" ++ path ++ ")")) := rfl

/-- The full trichotomy of checkParameters on null: accept, reject or
throw, each matching its predicate. -/
theorem cpNull_master (c : Constraint) (path : String) :
    ((∃ r, checkParameters .jnull c path = .ok (true, r))
        ∧ nullAccept c = true ∧ nullThrows c = false)
    ∨ ((∃ r, checkParameters .jnull c path = .ok (false, r))
        ∧ nullAccept c = false ∧ nullThrows c = false)
    ∨ ((∃ e, checkParameters .jnull c path = .error e)
        ∧ nullAccept c = false ∧ nullThrows c = true) := by
  obtain ⟨t, a1, a2, a3, co, re, op⟩ := c
  cases t with
  | none =>
    exact Or.inl ⟨⟨"Constraints don\x27t specify a type", rfl⟩, rfl, rfl⟩
  | some ct =>
    cases ct with
    | cobj =>
      exact Or.inr (Or.inr ⟨⟨"Expected constraints to contain a type (string)", rfl⟩, rfl, rfl⟩)
    | alts l =>
      have hcp : checkParameters .jnull (.mk (some (.alts l)) a1 a2 a3 co re op) path
          = cpFuel (Constraint.csize (.mk (some (.alts l)) a1 a2 a3 co re op) + 1 + 1)
              .jnull (.mk (some (.alts l)) a1 a2 a3 co re op) path := rfl
      rcases altsLoopGo_null (Constraint.csize (.mk (some (.alts l)) a1 a2 a3 co re op))
          l 0 path with ⟨⟨r, hr⟩, hany⟩ | ⟨hnone, hany⟩
      · refine Or.inl ⟨⟨r, ?_⟩, ?_, rfl⟩
        · rw [hcp, cpFuel_alts_eq, hr]
        · simp [nullAccept, Constraint.ctypeOf, hany]
      · refine Or.inr (Or.inl ⟨⟨"Constraints specify to accept any of "
            ++ String.intercalate ", " l ++ " (" ++ path ++ ")", ?_⟩, ?_, rfl⟩)
        · rw [hcp, cpFuel_alts_eq, hnone]
        · simp [nullAccept, Constraint.ctypeOf, hany]
    | single s =>
      by_cases h1 : s = "any"
      · subst h1
        exact Or.inl ⟨⟨"Constraints specify to accept everything (" ++ path ++ ")", rfl⟩,
          rfl, rfl⟩
      · by_cases h2 : s = "none"
        · subst h2
          exact Or.inl ⟨⟨"Constraints specify to accept no parameters (" ++ path ++ ")", rfl⟩,
            rfl, rfl⟩
        · by_cases h3 : s = "null"
          · subst h3
            exact Or.inl ⟨⟨"Constraints specify to accept no parameters (" ++ path ++ ")", rfl⟩,
              rfl, rfl⟩
          · by_cases h4 : s = "array"
            · subst h4
              exact Or.inr (Or.inl ⟨⟨"Constraints specify to accept an array ("
                  ++ path ++ ")", rfl⟩, rfl, rfl⟩)
            · by_cases h5 : s = "object"
              · subst h5
                cases hq : reqEntriesNonempty (.mk (some (.single "object")) a1 a2 a3 co re op)
                · obtain ⟨r, hr⟩ := (checkObjectGo_null
                    (cpFuel (Constraint.csize (.mk (some (.single "object")) a1 a2 a3 co re op)
                      + 1))
                    (.mk (some (.single "object")) a1 a2 a3 co re op) path).1 hq
                  refine Or.inl ⟨⟨r, hr⟩, ?_, ?_⟩
                  · simp [nullAccept, Constraint.ctypeOf, hq]
                  · simp [nullThrows, Constraint.ctypeOf, hq]
                · obtain ⟨e, he⟩ := (checkObjectGo_null
                    (cpFuel (Constraint.csize (.mk (some (.single "object")) a1 a2 a3 co re op)
                      + 1))
                    (.mk (some (.single "object")) a1 a2 a3 co re op) path).2 hq
                  refine Or.inr (Or.inr ⟨⟨e, he⟩, ?_, ?_⟩)
                  · simp [nullAccept, Constraint.ctypeOf, hq]
                  · simp [nullThrows, Constraint.ctypeOf, hq]
              · refine Or.inr (Or.inl ⟨⟨"Constraints specify to accept a " ++ s
                    ++ " (" ++ path ++ ")", ?_⟩, ?_, ?_⟩)
                · show cpFuel _ .jnull _ path = _
                  simp [cpFuel, Constraint.ctypeOf, h1, h2, h3, h4, h5, typeofStr,
                    sbeq_false_of_ne "object" s (fun he => h5 he.symm)]
                · simp [nullAccept, Constraint.ctypeOf, h5, nullTypeNameAccepts,
                    sbeq_false_of_ne s "any" h1, sbeq_false_of_ne s "none" h2,
                    sbeq_false_of_ne s "null" h3, sbeq_false_of_ne s "object" h5]
                · simp [nullThrows, Constraint.ctypeOf, h5]

/-- An exclusive three-way outcome shape yields the two membership
equivalences used by the amended C6. -/
theorem except_shape_iffs (x : Except String (Bool × String)) (a b : Bool)
    (H : ((∃ r, x = .ok (true, r)) ∧ a = true ∧ b = false)
       ∨ ((∃ r, x = .ok (false, r)) ∧ a = false ∧ b = false)
       ∨ ((∃ e, x = .error e) ∧ a = false ∧ b = true)) :
    ((∃ r, x = .ok (true, r)) ↔ a = true) ∧ ((∃ e, x = .error e) ↔ b = true) := by
  constructor
  · constructor
    · rintro ⟨r', hr'⟩
      rcases H with ⟨_, ha, _⟩ | ⟨⟨r, hr⟩, _, _⟩ | ⟨⟨e, he⟩, _, _⟩
      · exact ha
      · rw [hr'] at hr; simp at hr
      · rw [hr'] at he; simp at he
    · intro ha
      rcases H with ⟨⟨r, hr⟩, _, _⟩ | ⟨_, ha2, _⟩ | ⟨_, ha2, _⟩
      · exact ⟨r, hr⟩
      · rw [ha2] at ha; exact Bool.noConfusion ha
      · rw [ha2] at ha; exact Bool.noConfusion ha
  · constructor
    · rintro ⟨e', he'⟩
      rcases H with ⟨⟨r, hr⟩, _, _⟩ | ⟨⟨r, hr⟩, _, _⟩ | ⟨_, _, hb⟩
      · rw [he'] at hr; simp at hr
      · rw [he'] at hr; simp at hr
      · exact hb
    · intro hb
      rcases H with ⟨_, _, hb2⟩ | ⟨_, _, hb2⟩ | ⟨⟨e, he⟩, _, _⟩
      · rw [hb2] at hb; exact Bool.noConfusion hb
      · rw [hb2] at hb; exact Bool.noConfusion hb
      · exact ⟨e, he⟩

/-- C6, amended: checkParameters accepts null exactly when the constraint
specifies no type, or a single or alternative type among any, none, null,
or object with no effective required entries; it throws exactly when the
type field is an ill-formed object, or the type is object and a required
(or contains-as-required) entry forces a property read on null. -/
theorem C6_null_acceptance_amended (c : Constraint) (path : String) :
    ((∃ r, checkParameters .jnull c path = .ok (true, r)) ↔ nullAccept c = true) ∧
    ((∃ e, checkParameters .jnull c path = .error e) ↔ nullThrows c = true) :=
  except_shape_iffs (checkParameters .jnull c path) (nullAccept c) (nullThrows c)
    (cpNull_master c path)

/-- The result component of the validation-and-invocation stage does not
depend on the state (only the new error table does). -/
theorem runChecked_res (st : RpcState) (entry : MethodEntry) (p : JValue)
    (sess : Option Session) :
    (Rpc.runChecked st entry p sess).1
      = (match entry.parameterSchema with
         | none => outcomeToExec (entry.handler p sess)
         | some schema =>
           match validateParams p schema "" with
           | .error e => .errError e
           | .ok (true, _) => outcomeToExec (entry.handler p sess)
           | .ok (false, _) => .errRef .parameters) := by
  cases hps : entry.parameterSchema with
  | none => simp [Rpc.runChecked, hps]
  | some schema =>
    cases hvp : validateParams p schema "" with
    | error e => simp [Rpc.runChecked, hps, hvp]
    | ok br =>
      cases br with
      | mk b r => cases b <;> simp [Rpc.runChecked, hps, hvp]

/-- The validation-and-invocation stage only rewrites the error table: the
method registry and the session store are untouched. -/
theorem runChecked_state (st : RpcState) (entry : MethodEntry) (p : JValue)
    (sess : Option Session) :
    (Rpc.runChecked st entry p sess).2.methods = st.methods ∧
    (Rpc.runChecked st entry p sess).2.sessionManager = st.sessionManager := by
  cases hps : entry.parameterSchema with
  | none => simp [Rpc.runChecked, hps]
  | some schema =>
    cases hvp : validateParams p schema "" with
    | error e => simp [Rpc.runChecked, hps, hvp]
    | ok br =>
      cases br with
      | mk b r => cases b <;> simp [Rpc.runChecked, hps, hvp]

/-- With no session manager, the result component of Rpc._execute is a
function of the registry entry and the parameters alone. -/
theorem execute_none_res (st : RpcState) (now : Int) (m : String) (p tok : JValue)
    (hsm : st.sessionManager = none) :
    (Rpc.execute st now m p tok).1
      = (match lookupMethod st.methods m with
         | none => .errRef .method
         | some entry => (Rpc.runChecked st entry p none).1) := by
  cases hlk : lookupMethod st.methods m with
  | none => simp [Rpc.execute, hlk]
  | some entry => simp [Rpc.execute, hlk, hsm]

/-- With no session manager, Rpc._execute preserves the registry and the
absent session store. -/
theorem execute_none_state (st : RpcState) (now : Int) (m : String) (p tok : JValue)
    (hsm : st.sessionManager = none) :
    (Rpc.execute st now m p tok).2.methods = st.methods ∧
    (Rpc.execute st now m p tok).2.sessionManager = none := by
  cases hlk : lookupMethod st.methods m with
  | none => simp [Rpc.execute, hlk, hsm]
  | some entry =>
    have hs := runChecked_state st entry p none
    simp only [Rpc.execute, hlk, hsm]
    exact ⟨hs.1, hs.2.trans hsm⟩

/-- With no session manager, one _handle call preserves the registry and
the absent session store (it only rewrites error templates). -/
theorem handleOneBody_preserves (st : RpcState) (now : Int) (r : JValue)
    (hsm : st.sessionManager = none) :
    (Rpc.handleOneBody st now r).2.methods = st.methods ∧
    (Rpc.handleOneBody st now r).2.sessionManager = none := by
  by_cases hv : validEnvelope r
  · have hp := execute_none_state st now (methodOf r) (paramsOf r) (tokenOf r) hsm
    cases hE : Rpc.execute st now (methodOf r) (paramsOf r) (tokenOf r) with
    | mk res stA =>
      rw [hE] at hp
      have hpm : stA.methods = st.methods := hp.1
      have hpsm : stA.sessionManager = none := hp.2
      simp only [Rpc.handleOneBody, hv, Bool.not_true, Bool.false_eq_true, if_false, hE]
      cases res <;> simp [hpm, hpsm]
  · simp [Rpc.handleOneBody, hv, hsm]

/-- With no session manager, the response envelope produced for a request
(its id, result, and which error template it references) does not depend
on the error-table or other mutable parts of the state: only the method
registry matters. -/
theorem handleOneBody_resp_stable (stA stB : RpcState) (now : Int) (r : JValue)
    (hm : stA.methods = stB.methods)
    (h1 : stA.sessionManager = none) (h2 : stB.sessionManager = none) :
    (Rpc.handleOneBody stA now r).1 = (Rpc.handleOneBody stB now r).1 := by
  by_cases hv : validEnvelope r
  · have e1 := execute_none_res stA now (methodOf r) (paramsOf r) (tokenOf r) h1
    have e2 := execute_none_res stB now (methodOf r) (paramsOf r) (tokenOf r) h2
    cases hE1 : Rpc.execute stA now (methodOf r) (paramsOf r) (tokenOf r) with
    | mk res1 stA' =>
      cases hE2 : Rpc.execute stB now (methodOf r) (paramsOf r) (tokenOf r) with
      | mk res2 stB' =>
        rw [hE1] at e1
        rw [hE2] at e2
        have hres : res1 = res2 := by
          have e1' : res1 = (match lookupMethod stA.methods (methodOf r) with
            | none => ExecResult.errRef .method
            | some entry => (Rpc.runChecked stA entry (paramsOf r) none).1) := e1
          have e2' : res2 = (match lookupMethod stB.methods (methodOf r) with
            | none => ExecResult.errRef .method
            | some entry => (Rpc.runChecked stB entry (paramsOf r) none).1) := e2
          rw [e1', e2', hm]
          cases hlk : lookupMethod stB.methods (methodOf r) with
          | none => rfl
          | some entry => simp [runChecked_res]
        subst hres
        simp only [Rpc.handleOneBody, hv, Bool.not_true, Bool.false_eq_true, if_false, hE1, hE2]
        cases res1 <;> rfl
  · simp [Rpc.handleOneBody, hv]

/-- The batch loop with no session manager: it succeeds on a batch of
non-null members, preserves the registry and absent store, yields one
response per member in order, and each response is exactly what its member
would get as a lone request from the initial state. -/
theorem handleBatch_none_spec (now : Int) :
    ∀ (elems : List JValue) (st : RpcState),
      st.sessionManager = none →
      (∀ r ∈ elems, ¬ r = .jnull) →
      ∃ rs stN,
        Rpc.handleBatch st now elems = .ok (rs, stN) ∧
        stN.methods = st.methods ∧ stN.sessionManager = none ∧
        rs.length = elems.length ∧
        ∀ (i : Nat) (hi : i < elems.length) (hi' : i < rs.length),
          rs.get ⟨i, hi'⟩ = (Rpc.handleOneBody st now (elems.get ⟨i, hi⟩)).1 := by
  intro elems
  induction elems with
  | nil =>
    intro st hsm _
    exact ⟨[], st, rfl, rfl, hsm, rfl, fun i hi _ => absurd hi (Nat.not_lt_zero i)⟩
  | cons r rest ih =>
    intro st hsm hnn
    have hr : ¬ r = .jnull := hnn r (List.mem_cons_self r rest)
    have hone : Rpc.handleOne st now r = .ok (Rpc.handleOneBody st now r) := by
      cases r with
      | jnull => exact absurd rfl hr
      | jbool b => rfl
      | jnum n => rfl
      | jstr s => rfl
      | jarr l => rfl
      | jobj f => rfl
    have hpres := handleOneBody_preserves st now r hsm
    cases hB : Rpc.handleOneBody st now r with
    | mk resp st₁ =>
      rw [hB] at hpres
      have hm1 : st₁.methods = st.methods := hpres.1
      have hsm1 : st₁.sessionManager = none := hpres.2
      obtain ⟨rs, stN, hbatch, hmN, hsmN, hlen, hidx⟩ :=
        ih st₁ hsm1 (fun x hx => hnn x (List.mem_cons_of_mem r hx))
      refine ⟨resp :: rs, stN, ?_, hmN.trans hm1, hsmN, ?_, ?_⟩
      · simp [Rpc.handleBatch, hone, hB, hbatch]
      · simp [hlen]
      · intro i hi hi'
        cases i with
        | zero => simp [hB]
        | succ j =>
          have hj : j < rest.length := Nat.lt_of_succ_lt_succ hi
          have hj' : j < rs.length := Nat.lt_of_succ_lt_succ hi'
          have hrec := hidx j hj hj'
          have hstb := handleOneBody_resp_stable st₁ st now (rest.get ⟨j, hj⟩) hm1 hsm1 hsm
          show rs.get ⟨j, hj'⟩ = (Rpc.handleOneBody st now (rest.get ⟨j, hj⟩)).1
          rw [hrec, hstb]

/-- C5, amended: with no session manager, an array input yields an array of
responses, one per non-null member in input order, and a bare object
yields a bare response; each member's response envelope (id and referenced
error template) is exactly what the member would get as a lone request
from the initial state, so it depends only on that member; but all
responses are serialized together against the final template table
stN.errors, through which a later member's failure rewrites the serialized
error contents of an earlier member. -/
theorem C5_batch_amended (st : RpcState) (now : Int) (elems : List JValue)
    (hsm : st.sessionManager = none)
    (hnn : ∀ r ∈ elems, ¬ r = .jnull) :
    ∃ rs stN,
      Rpc.handleBatch st now elems = .ok (rs, stN) ∧
      Rpc.handle st now (.jarr elems)
        = .ok (.jarr (rs.map (resolveResponse stN.errors)), stN) ∧
      rs.length = elems.length ∧
      (∀ (i : Nat) (hi : i < elems.length) (hi' : i < rs.length),
        rs.get ⟨i, hi'⟩ = (Rpc.handleOneBody st now (elems.get ⟨i, hi⟩)).1) ∧
      (∀ fields : List (String × JValue), ∃ resp st',
        Rpc.handle st now (.jobj fields) = .ok (resolveResponse st'.errors resp, st')) := by
  obtain ⟨rs, stN, hbatch, _, _, hlen, hidx⟩ := handleBatch_none_spec now elems st hsm hnn
  refine ⟨rs, stN, hbatch, ?_, hlen, hidx, ?_⟩
  · simp [Rpc.handle, typeofStr, JValue.isNull, hbatch]
  · intro fields
    cases hb : Rpc.handleOneBody st now (.jobj fields) with
    | mk resp st' =>
      exact ⟨resp, st', by simp [Rpc.handle, Rpc.handleOne, typeofStr, JValue.isNull, hb]⟩

theorem C5_batch_amended_witness :
    ∃ rs stN,
      Rpc.handleBatch c5wState 0 c5wBatch = .ok (rs, stN) ∧
      Rpc.handle c5wState 0 (.jarr c5wBatch)
        = .ok (.jarr (rs.map (resolveResponse stN.errors)), stN) ∧
      rs.length = c5wBatch.length ∧
      (∀ (i : Nat) (hi : i < c5wBatch.length) (hi' : i < rs.length),
        rs.get ⟨i, hi'⟩ = (Rpc.handleOneBody c5wState 0 (c5wBatch.get ⟨i, hi⟩)).1) ∧
      (∀ fields : List (String × JValue), ∃ resp st',
        Rpc.handle c5wState 0 (.jobj fields) = .ok (resolveResponse st'.errors resp, st')) :=
  C5_batch_amended c5wState 0 c5wBatch rfl (by
    intro r hr
    simp only [c5wBatch, List.mem_singleton] at hr
    subst hr
    exact fun h => JValue.noConfusion h)

end NicolaiJsonRpc
